import Mathlib

/-!
TinyMail: mail-session and message-resolution engine.

A shallow embedding of `internal/clients/imap/imap.go` and
`internal/clients/smtp/smtp.go`, followed by the properties proved about it.

Conventions of the embedding.

* A Go `string` is a Lean `String`, read as its sequence of Unicode code points
  (the strings handled here are valid UTF-8).
* A Go slice is a `List`; the `nil` slice and the empty slice are both `[]`.
* `uint32` values are natural numbers; where the source adds two of them the
  sum is reduced with `uint32`, i.e. modulo `2 ^ 32`.
* Every call to a collaborator outside the repository (DNS, the IMAP and SMTP
  libraries, the clock, the random source) is answered by a field of an `Env`.
  A network-facing field receives the history of the calls made so far, so a
  collaborator may answer the same request differently at different times.
  Each such call is appended to the history as an `Event`.
* A Go run-time panic (a nil dereference) is the outcome `Outcome.panic`.
-/

namespace TinyMail

/-! ## Shared: errors, standard-library helpers -/

/-- The error values that the two clients create or pass on. `external` stands
for any error produced by a collaborator; `join` is the value built by
`errors.Join`. -/
inductive Error where
  | external (code : Nat)
  | invalidEmailFormat
  | startLargerThanEnd (start stop : Nat)
  | failedToSelect (mailbox : String) (cause : Error)
  | messageNotFound
  | srvRecordDoesNotExist
  | join (errs : List Error)

/-- Go `errors.Join`: the nil arguments are discarded; the result is nil when
every argument is nil, and otherwise wraps the remaining ones in order. -/
def errorsJoin (errs : List (Option Error)) : Option Error :=
  match errs.filterMap id with
  | [] => none
  | e :: es => some (Error.join (e :: es))

/-- A record of `net.LookupSRV` (the fields the clients read). -/
structure SRV where
  Target : String
  Port : Nat
deriving DecidableEq

/-- Go `strings.LastIndex(s, string(c))` on the code points of `s`. -/
def lastIndex (c : Char) : List Char → Option Nat
  | [] => none
  | x :: xs =>
    match lastIndex c xs with
    | some i => some (i + 1)
    | none => if x = c then some 0 else none

/-- Go `strings.TrimSuffix`. -/
def trimSuffix (s suffix : String) : String :=
  if suffix.data.isSuffixOf s.data then
    ⟨s.data.take (s.data.length - suffix.data.length)⟩
  else s

/-- Reduction of a natural number to the range of a Go `uint32`. -/
def uint32 (n : Nat) : Nat := n % 2 ^ 32

/-- Go `sort.Slice(l, less)`: the result is a rearrangement of `l` in which no
later element is `less` than an earlier one. The library's algorithm is not
stable; the order it gives to elements that compare equal is not used below. -/
def sortSlice {α : Type} (less : α → α → Bool) (l : List α) : List α :=
  l.insertionSort (fun a b => less b a = false)

/-! ## Package imap -/

namespace imap

/-! ### The body structure of the IMAP library -/

/-- Modelled from the spec: the body-structure tree of the IMAP library (its
source is not part of the repository). A node is a single part, with a type and
a subtype and, for a part of type message/rfc822, the structure of the embedded
message, or a multipart container with its children and a subtype. -/
inductive BodyStructure where
  | singlePart (type subtype : String) (messageRFC822 : Option BodyStructure)
  | multiPart (children : List BodyStructure) (subtype : String)

/-- Go `strings.ToLower` restricted to ASCII: the letters A-Z are mapped to
a-z and every other code point is kept. Go also maps the upper-case letters
outside ASCII (for instance U+0130 and U+212A), so for a type or subtype with
such a letter the media type of the model differs from the library's. -/
def toLower (s : String) : String := ⟨s.data.map Char.toLower⟩

/-- Modelled from the spec: the media type of a node, `type/subtype` in lower
case for a single part and `multipart/subtype` for a container. -/
def BodyStructure.MediaType : BodyStructure → String
  | .singlePart t s _ => toLower t ++ "/" ++ toLower s
  | .multiPart _ s => "multipart/" ++ toLower s

mutual
/-- Modelled from the spec: the recursive step of the structure walk primitive.
The callback `f` is called on the node with its path; for a container, when the
callback answers `true`, the children are visited in order, child `i` (counted
from 1) with the path extended by `i`. The state `σ` is what the callback
captures and updates. -/
def BodyStructure.walk {σ : Type} (f : σ → List Nat → BodyStructure → σ × Bool) (s : σ)
    (path : List Nat) : BodyStructure → σ
  | .singlePart t st m => (f s path (.singlePart t st m)).1
  | .multiPart children st =>
    let r := f s path (.multiPart children st)
    if r.2 then BodyStructure.walkChildren f r.1 path 0 children else r.1
/-- The loop of `walk` over the children of a container; `i` children have been
visited already. -/
def BodyStructure.walkChildren {σ : Type} (f : σ → List Nat → BodyStructure → σ × Bool)
    (s : σ) (path : List Nat) (i : Nat) : List BodyStructure → σ
  | [] => s
  | part :: rest =>
    BodyStructure.walkChildren f (BodyStructure.walk f s (path ++ [i + 1]) part) path (i + 1)
      rest
end

/-- Modelled from the spec: the structure walk primitive `Walk` (pre-order, the
callback deciding whether to descend). A single-part root is visited with the
path `[1]`, a container root with the empty (nil) path. -/
def BodyStructure.Walk {σ : Type} (f : σ → List Nat → BodyStructure → σ × Bool) (s : σ) :
    BodyStructure → σ
  | .singlePart t st m => (f s [1] (.singlePart t st m)).1
  | .multiPart children st => BodyStructure.walk f s [] (.multiPart children st)

/-- The callback of `findPlainTextPath`. Its first argument and the first
component of its result are the captured variable `plainTextPath` before and
after the call (`[]` is Go's nil); the second component is `walkChildren`. -/
def findPlainTextPath.visit (plainTextPath : List Nat) (path : List Nat)
    (part : BodyStructure) : List Nat × Bool :=
  if plainTextPath ≠ [] then (plainTextPath, false)
  else if part.MediaType = "text/plain" then (path, false)
  else (plainTextPath, !(part.MediaType == "message/rfc822"))

/-- The function `findPlainTextPath` of imap.go; the result `[]` is Go's nil. -/
def findPlainTextPath (bs : BodyStructure) : List Nat :=
  bs.Walk findPlainTextPath.visit []

/-! ### The tree of a body structure, as the specification reads it -/

mutual
/-- The nodes of the tree below and including `bs`, in depth-first pre-order
with siblings in structural order. Each node comes with its path and with the
flag `inside`, which says that an ancestor has media type message/rfc822. The
children of a container are its parts; the only child of a message/rfc822 part
is the structure of the embedded message; other single parts are leaves. -/
def BodyStructure.preorder (path : List Nat) (inside : Bool) :
    BodyStructure → List (List Nat × Bool × BodyStructure)
  | .singlePart t st m =>
    (path, inside, .singlePart t st m) ::
      (match m with
       | none => []
       | some e =>
         if (BodyStructure.singlePart t st m).MediaType = "message/rfc822" then
           BodyStructure.preorder (path ++ [1]) true e
         else [])
  | .multiPart children st =>
    (path, inside, .multiPart children st) ::
      BodyStructure.preorderChildren path
        (inside || (BodyStructure.multiPart children st).MediaType == "message/rfc822") 0
        children
/-- The pre-order listing of a sequence of siblings, the first of which is
child number `i + 1`. -/
def BodyStructure.preorderChildren (path : List Nat) (inside : Bool) (i : Nat) :
    List BodyStructure → List (List Nat × Bool × BodyStructure)
  | [] => []
  | part :: rest =>
    BodyStructure.preorder (path ++ [i + 1]) inside part ++
      BodyStructure.preorderChildren path inside (i + 1) rest
end

/-- The path of the root: `[1]` for a single part, empty for a container. -/
def BodyStructure.rootPath : BodyStructure → List Nat
  | .singlePart _ _ _ => [1]
  | .multiPart _ _ => []

/-- A node is a candidate when its media type is text/plain and it has no
message/rfc822 ancestor. -/
def isCandidate (n : List Nat × Bool × BodyStructure) : Bool :=
  !n.2.1 && n.2.2.MediaType == "text/plain"

/-- The paths of the candidates of a tree, in pre-order. -/
def plainTextCandidates (bs : BodyStructure) : List (List Nat) :=
  ((bs.preorder bs.rootPath false).filter isCandidate).map (fun n => n.1)

/-- The path of the first candidate of a listing, `[]` when there is none. -/
def firstPath (l : List (List Nat × Bool × BodyStructure)) : List Nat :=
  (((l.filter isCandidate).map (fun n => n.1)).head?).getD []

/-! ### Collaborator data: the IMAP library, DNS -/

/-- A handle of an established connection (`*imapclient.Client`). -/
abbrev Conn := Nat

/-- The part specifier of a body section (`imap.PartSpecifier`). -/
inductive PartSpecifier where
  | none
  | mime
deriving DecidableEq

/-- A requested body section (`imap.FetchItemBodySection`). -/
structure FetchItemBodySection where
  Part : List Nat
  Specifier : PartSpecifier
deriving DecidableEq

/-- The items of a fetch request (`imap.FetchOptions`). -/
structure FetchOptions where
  UID : Bool
  Flags : Bool
  Envelope : Bool
  BodyStructure : Bool
  BodySection : List FetchItemBodySection
deriving DecidableEq

/-- The set of messages of a fetch request: sequence numbers (`imap.SeqSetNum`)
or unique identifiers (`imap.UIDSetNum`). -/
inductive NumSet where
  | seq (nums : List Nat)
  | uid (uids : List Nat)
deriving DecidableEq

/-- An address of an envelope (`imap.Address`). -/
structure Address where
  Name : String
  Mailbox : String
  Host : String
deriving DecidableEq

/-- The envelope of a message (`imap.Envelope`), the fields that are read. -/
structure Envelope where
  Subject : String
  From : List Address
deriving DecidableEq

/-- One answer of a fetch (`imapclient.FetchMessageBuffer`). The envelope and
the body structure are pointers in the library and may be nil. -/
structure FetchMessageBuffer where
  UID : Nat
  Flags : List String
  Envelope : Option Envelope
  BodyStructure : Option BodyStructure
  BodySection : List (FetchItemBodySection × String)

/-- One answer of a list command (`imap.ListData`). -/
structure ListData where
  Mailbox : String
deriving DecidableEq

/-- The answer of a select command (`imap.SelectData`). -/
structure SelectData where
  NumMessages : Nat
deriving DecidableEq

/-- The calls made to collaborators, in the order of the history. -/
inductive Event where
  | lookupSRV (service proto name : String)
  | dialTLS (addr : String)
  | logPrintf
  | login (conn : Conn) (username password : String)
  | logout (conn : Conn)
  | close (conn : Conn)
  | list (conn : Conn) (ref pattern : String)
  | select (conn : Conn) (mailbox : String)
  | fetch (conn : Conn) (numSet : NumSet) (options : FetchOptions)
deriving DecidableEq

/-- The collaborators of package imap. Every network-facing answer may depend on
the history of calls. `parseEmail` is `letters.ParseEmail` followed by reading
the field `Text`. -/
structure Env where
  lookupSRV : List Event → String → String → String → List SRV × Option Error
  dialTLS : List Event → String → Except Error Conn
  login : List Event → Conn → String → String → Option Error
  logout : List Event → Conn → Option Error
  list : List Event → Conn → String → String → Except Error (List ListData)
  select : List Event → Conn → String → Except Error SelectData
  fetch : List Event → Conn → NumSet → FetchOptions → Except Error (List FetchMessageBuffer)
  parseEmail : String → Except Error String

/-- The result of running a function of imap.go from a history: it returns a
value, or it panics; either way with the history extended by the calls made. -/
inductive Outcome (α : Type) where
  | ret (val : α) (log : List Event)
  | panic (log : List Event)

/-- The history at the end of a run. -/
def Outcome.log {α : Type} : Outcome α → List Event
  | .ret _ l => l
  | .panic l => l

/-! ### Package models -/

/-- Modelled from the spec: `models.Message` (the declaration is not among the
sources): UID, seen flag, sender, subject and body. -/
structure Message where
  UID : Nat
  Seen : Bool
  From : String
  Subject : String
  Body : String
deriving DecidableEq

/-- Modelled from the spec: `models.Mailbox`: name, the unique identifiers and
the first page of message summaries. -/
structure Mailbox where
  Name : String
  UIDs : List Nat
  Messages : List Message
deriving DecidableEq

/-- Modelled from the spec: `models.Account`: the sequence of mailboxes. -/
structure Account where
  Mailboxes : List Mailbox
deriving DecidableEq

/-- The zero value of `models.Message`. -/
def Message.zero : Message := ⟨0, false, "", "", ""⟩

/-! ### imap.go -/

/-- The constant `messageLimit`. -/
def messageLimit : Nat := 500

/-- The constant `pageSize`. -/
def pageSize : Nat := 25

/-- The type `client` of imap.go. -/
structure client where
  Email : String
  Password : String
deriving DecidableEq

/-- The function `NewClient` of imap.go. -/
def NewClient (email password : String) : client := ⟨email, password⟩

/-- The function `emailDomain` of imap.go. -/
def emailDomain (email : String) : Except Error String :=
  match lastIndex '@' email.data with
  | none => .error .invalidEmailFormat
  | some i => .ok ⟨email.data.drop (i + 1)⟩

/-- The type `imapSession`: the embedded client pointer, possibly nil. -/
structure imapSession where
  Client : Option Conn
deriving DecidableEq

/-- The method `imapSession.Close`: logout, then (deferred) the close of the
connection, whatever the logout answered. -/
def imapSession.Close (env : Env) (s : imapSession) (log : List Event) :
    Outcome (Option Error) :=
  match s.Client with
  | none => .panic log
  | some conn => .ret (env.logout log conn) (log ++ [.logout conn, .close conn])

/-- The candidate loop of `Session`. The second and third arguments are
`session.Client` and `err` before the remaining candidates are tried. -/
def dialLoop (env : Env) : List SRV → Option Conn → Option Error → List Event →
    Option Conn × Option Error × List Event
  | [], cl, err, log => (cl, err, log)
  | srv :: rest, _, _, log =>
    let target := trimSuffix srv.Target "."
    let addr := target ++ ":" ++ toString srv.Port
    match env.dialTLS log addr with
    | .ok conn => (some conn, none, log ++ [.dialTLS addr])
    | .error e => dialLoop env rest none (some e) (log ++ [.dialTLS addr, .logPrintf])

/-- The method `client.Session`. After the loop, `Login` is called on
`session.Client`; on a nil pointer that call panics. -/
def client.Session (env : Env) (c : client) (log : List Event) :
    Outcome (imapSession × Option Error) :=
  match emailDomain c.Email with
  | .error e => .ret (⟨none⟩, some e) log
  | .ok domain =>
    let r := env.lookupSRV log "imaps" "tcp" domain
    let log1 := log ++ [.lookupSRV "imaps" "tcp" domain]
    match r.2 with
    | some e => .ret (⟨none⟩, some e) log1
    | none =>
      match dialLoop env r.1 none none log1 with
      | (cl, some e, log2) => .ret (⟨cl⟩, some e) log2
      | (none, none, log2) => .panic log2
      | (some conn, none, log2) =>
        match env.login log2 conn c.Email c.Password with
        | none => .ret (⟨some conn⟩, none) (log2 ++ [.login conn c.Email c.Password])
        | some e =>
          .ret (⟨some conn⟩, some e) (log2 ++ [.login conn c.Email c.Password, .close conn])

/-- The deferred function of `Account`, `Mailbox`, `Messages` and `Message`,
`err = errors.Join(err, session.Close())`, around the rest of the function
`body`. A deferred function also runs when the body panics. -/
def deferClose {α : Type} (env : Env) (session : imapSession)
    (body : List Event → Outcome (α × Option Error)) (log : List Event) :
    Outcome (α × Option Error) :=
  match body log with
  | .ret (a, err) log1 =>
    match session.Close env log1 with
    | .ret cerr log2 => .ret (a, errorsJoin [err, cerr]) log2
    | .panic log2 => .panic log2
  | .panic log1 => .panic (session.Close env log1).log

/-- The library call `s.Fetch(numSet, options).Collect()`. -/
def imapSession.fetch (env : Env) (s : imapSession) (numSet : NumSet) (options : FetchOptions)
    (log : List Event) : Outcome (Except Error (List FetchMessageBuffer)) :=
  match s.Client with
  | none => .panic log
  | some conn => .ret (env.fetch log conn numSet options) (log ++ [.fetch conn numSet options])

/-- The loop of `Account` that puts INBOX first: `acc.Mailboxes` after the
server's entries `mailboxes` have been visited, starting from `acc`. -/
def appendOthers : List ListData → List Mailbox → List Mailbox
  | [], acc => acc
  | mbox :: rest, acc =>
    if mbox.Mailbox ≠ "INBOX" then appendOthers rest (acc ++ [⟨mbox.Mailbox, [], []⟩])
    else appendOthers rest acc

/-- The method `client.Account` after the session is open (lines 109-125). -/
def accountBody (env : Env) (session : imapSession) (log : List Event) :
    Outcome (Account × Option Error) :=
  match session.Client with
  | none => .panic log
  | some conn =>
    match env.list log conn "" "%" with
    | .error e => .ret (⟨[]⟩, some e) (log ++ [.list conn "" "%"])
    | .ok mailboxes =>
      .ret (⟨appendOthers mailboxes [⟨"INBOX", [], []⟩]⟩, none) (log ++ [.list conn "" "%"])

/-- The method `client.Account`. -/
def client.Account (env : Env) (c : client) (log : List Event) :
    Outcome (Account × Option Error) :=
  match c.Session env log with
  | .panic l => .panic l
  | .ret (_, some e) l => .ret (⟨[]⟩, some e) l
  | .ret (session, none) l => deferClose env session (accountBody env session) l

/-- The fetch options `&imap.FetchOptions{UID: true}`. -/
def uidOptions : FetchOptions := ⟨true, false, false, false, []⟩

/-- The fetch options with `Envelope`, `Flags` and `UID` set. -/
def metadataOptions : FetchOptions := ⟨true, true, true, false, []⟩

/-- The fetch options with only `BodyStructure` set. -/
def bodyStructureOptions : FetchOptions := ⟨false, false, false, true, []⟩

/-- The method `imapSession.fetchUIDs`. -/
def imapSession.fetchUIDs (env : Env) (s : imapSession) (start stop : Nat)
    (log : List Event) : Outcome (List Nat × Option Error) :=
  if start > stop then .ret ([], some (.startLargerThanEnd start stop)) log
  else
    let count := stop - start
    let nums := (List.range count).map (fun i => uint32 (start + i + 1))
    match s.fetch env (.seq nums) uidOptions log with
    | .panic l => .panic l
    | .ret (.error e) l => .ret ([], some e) l
    | .ret (.ok messages) l => .ret (messages.map (fun msg => msg.UID), none) l

/-- The method `imap.Address.Addr` of the library. -/
def Address.Addr (a : Address) : String :=
  if a.Mailbox = "" ∨ a.Host = "" then "" else a.Mailbox ++ "@" ++ a.Host

/-- The flag `imap.FlagSeen`. -/
def FlagSeen : String := "\\Seen"

/-- The loop of `fetchMessages` over the fetched messages, appending to
`messages`; `none` when an envelope is nil, where the source dereferences it. -/
def toMessages : List FetchMessageBuffer → List Message → Option (List Message)
  | [], messages => some messages
  | msg :: rest, messages =>
    match msg.Envelope with
    | none => none
    | some envelope =>
      let sender := match envelope.From with
        | [] => ""
        | a :: _ => a.Addr
      toMessages rest
        (messages ++ [⟨msg.UID, msg.Flags.contains FlagSeen, sender, envelope.Subject, ""⟩])

/-- The method `imapSession.fetchMessages`. -/
def imapSession.fetchMessages (env : Env) (s : imapSession) (uids : List Nat)
    (log : List Event) : Outcome (List Message × Option Error) :=
  match s.fetch env (.uid uids) metadataOptions log with
  | .panic l => .panic l
  | .ret (.error e) l => .ret ([], some e) l
  | .ret (.ok fetchedMessages) l =>
    match toMessages fetchedMessages [] with
    | none => .panic l
    | some messages => .ret (sortSlice (fun a b => decide (a.UID > b.UID)) messages, none) l

/-- The statement `uidSet[uid] = struct{}{}` on the keys of the map, kept in
the order of first insertion. -/
def insertUID (uidSet : List Nat) (uid : Nat) : List Nat :=
  if uid ∈ uidSet then uidSet else uidSet ++ [uid]

/-- The UID-enumeration loop of `Mailbox` (lines 206-218), entered with the
loop variable `start` and the keys `uidSet`. It returns the keys of the map
and the error of the failing batch, if any. The loop variables are `uint32`:
`start + messageLimit` is reduced modulo `2 ^ 32`. -/
def uidLoop (env : Env) (session : imapSession) (numMessages : Nat) (start : Nat)
    (uidSet : List Nat) (log : List Event) : Outcome (List Nat × Option Error) :=
  if start < numMessages then
    let stop :=
      if uint32 (start + messageLimit) > numMessages then numMessages
      else uint32 (start + messageLimit)
    match h : session.fetchUIDs env start stop log with
    | .panic l => .panic l
    | .ret (_, some e) l => .ret (uidSet, some e) l
    | .ret (batch, none) l =>
      uidLoop env session numMessages (uint32 (start + messageLimit))
        (batch.foldl insertUID uidSet) l
  else .ret (uidSet, none) log
termination_by (if start < 2 ^ 32 then 0 else 1, numMessages - start)
decreasing_by
  have hle : start ≤ stop := by
    unfold imapSession.fetchUIDs at h
    split at h
    · simp at h
    · omega
  simp only [stop] at hle
  have hm : uint32 (start + messageLimit) < 2 ^ 32 := Nat.mod_lt _ (by decide)
  simp only [hm, if_true]
  by_cases hs : start < 2 ^ 32
  · simp only [hs, if_true]
    apply Prod.Lex.right
    simp only [uint32, messageLimit] at hle hm ⊢
    split at hle <;> omega
  · simp only [hs, if_false]
    apply Prod.Lex.left
    decide

/-- The method `client.Mailbox` after the session is open (lines 195-243). The
keys of the map are visited in an unspecified order by Go; they are distinct,
so the sorted result does not depend on that order. -/
def mailboxBody (env : Env) (session : imapSession) (name : String) (log : List Event) :
    Outcome (Mailbox × Option Error) :=
  match session.Client with
  | none => .panic log
  | some conn =>
    match env.select log conn name with
    | .error e => .ret (⟨name, [], []⟩, some e) (log ++ [.select conn name])
    | .ok selected =>
      if selected.NumMessages = 0 then .ret (⟨name, [], []⟩, none) (log ++ [.select conn name])
      else
        match uidLoop env session selected.NumMessages 0 [] (log ++ [.select conn name]) with
        | .panic l => .panic l
        | .ret (_, some e) l => .ret (⟨name, [], []⟩, some e) l
        | .ret (uidSet, none) l =>
          let uids := sortSlice (fun a b => decide (a > b)) uidSet
          let page := if uids.length > pageSize then uids.take pageSize else uids
          match session.fetchMessages env page l with
          | .panic l2 => .panic l2
          | .ret (messages, err) l2 => .ret (⟨name, uids, messages⟩, err) l2

/-- The method `client.Mailbox`. -/
def client.Mailbox (env : Env) (c : client) (name : String) (log : List Event) :
    Outcome (Mailbox × Option Error) :=
  match c.Session env log with
  | .panic l => .panic l
  | .ret (_, some e) l => .ret (⟨name, [], []⟩, some e) l
  | .ret (session, none) l => deferClose env session (mailboxBody env session name) l

/-- The method `client.Messages` after the session is open. -/
def messagesBody (env : Env) (session : imapSession) (mailbox : String) (uids : List Nat)
    (log : List Event) : Outcome (List Message × Option Error) :=
  match session.Client with
  | none => .panic log
  | some conn =>
    match env.select log conn mailbox with
    | .error e => .ret ([], some (.failedToSelect mailbox e)) (log ++ [.select conn mailbox])
    | .ok _ => session.fetchMessages env uids (log ++ [.select conn mailbox])

/-- The method `client.Messages`. -/
def client.Messages (env : Env) (c : client) (mailbox : String) (uids : List Nat)
    (log : List Event) : Outcome (List Message × Option Error) :=
  match c.Session env log with
  | .panic l => .panic l
  | .ret (_, some e) l => .ret ([], some e) l
  | .ret (session, none) l => deferClose env session (messagesBody env session mailbox uids) l

/-- The method `imapSession.fetchBodyStructure`. -/
def imapSession.fetchBodyStructure (env : Env) (s : imapSession) (uid : Nat)
    (log : List Event) : Outcome (Option BodyStructure × Option Error) :=
  match s.fetch env (.uid [uid]) bodyStructureOptions log with
  | .panic l => .panic l
  | .ret (.error e) l => .ret (none, some e) l
  | .ret (.ok []) l => .ret (none, some .messageNotFound) l
  | .ret (.ok (msg :: _)) l => .ret (msg.BodyStructure, none) l

/-- The function `decodeMessagePart`. -/
def decodeMessagePart (env : Env) (mime text : String) : Except Error String :=
  env.parseEmail (mime ++ text)

/-- The library method `FindBodySection`: the bytes of the requested section,
nil (empty) when the answer does not hold it. -/
def FetchMessageBuffer.FindBodySection (msg : FetchMessageBuffer)
    (wanted : FetchItemBodySection) : String :=
  match msg.BodySection.find? (fun p => p.1 = wanted) with
  | some p => p.2
  | none => ""

/-- The method `imapSession.fetchMessagePart`. -/
def imapSession.fetchMessagePart (env : Env) (s : imapSession) (uid : Nat) (path : List Nat)
    (log : List Event) : Outcome (Message × Option Error) :=
  match s.fetch env (.uid [uid]) ⟨true, true, true, false, [⟨path, .mime⟩, ⟨path, .none⟩]⟩
      log with
  | .panic l => .panic l
  | .ret (.error e) l => .ret (Message.zero, some e) l
  | .ret (.ok []) l => .ret (Message.zero, some .messageNotFound) l
  | .ret (.ok (msg :: _)) l =>
    match decodeMessagePart env (msg.FindBodySection ⟨path, .mime⟩)
        (msg.FindBodySection ⟨path, .none⟩) with
    | .error e => .ret (Message.zero, some e) l
    | .ok body =>
      match msg.Envelope with
      | none => .panic l
      | some envelope =>
        let sender := match envelope.From with
          | [] => ""
          | a :: _ => a.Addr
        .ret (⟨msg.UID, msg.Flags.contains FlagSeen, sender, envelope.Subject, body⟩, none) l

/-- The method `client.Message` after the session is open. A nil body
structure makes the call of `Walk` panic. -/
def messageBody (env : Env) (session : imapSession) (mailbox : String) (uid : Nat)
    (log : List Event) : Outcome (Message × Option Error) :=
  match session.Client with
  | none => .panic log
  | some conn =>
    match env.select log conn mailbox with
    | .error e =>
      .ret (Message.zero, some (.failedToSelect mailbox e)) (log ++ [.select conn mailbox])
    | .ok _ =>
      match session.fetchBodyStructure env uid (log ++ [.select conn mailbox]) with
      | .panic l => .panic l
      | .ret (_, some e) l => .ret (Message.zero, some e) l
      | .ret (none, none) l => .panic l
      | .ret (some bs, none) l =>
        match findPlainTextPath bs with
        | [] =>
          match session.fetchMessages env [uid] l with
          | .panic l2 => .panic l2
          | .ret (_, some e) l2 => .ret (Message.zero, some e) l2
          | .ret ([], none) l2 => .ret (Message.zero, some .messageNotFound) l2
          | .ret (m :: _, none) l2 => .ret (m, none) l2
        | p :: ps => session.fetchMessagePart env uid (p :: ps) l

/-- The method `client.Message`. -/
def client.Message (env : Env) (c : client) (mailbox : String) (uid : Nat)
    (log : List Event) : Outcome (Message × Option Error) :=
  match c.Session env log with
  | .panic l => .panic l
  | .ret (_, some e) l => .ret (Message.zero, some e) l
  | .ret (session, none) l => deferClose env session (messageBody env session mailbox uid) l

/-! ### Notions used to state the properties of package imap -/

/-- The calls of a history that tear a session down: logouts and closes of
connections, in order. -/
def teardown (log : List Event) : List Event :=
  log.filter fun e => match e with
    | .logout _ => true
    | .close _ => true
    | _ => false

/-- The login calls of a history, in order. -/
def logins (log : List Event) : List Event :=
  log.filter fun e => match e with
    | .login _ _ _ => true
    | _ => false

/-- The contract of Go's `net.LookupSRV`: a nil error comes with at least one
record. A lookup that finds no SRV record does not answer with an empty list;
it fails (with the error "no such host"). -/
def ResolverContract (env : Env) : Prop :=
  ∀ (h : List Event) (service proto name : String),
    (env.lookupSRV h service proto name).2 = none →
    (env.lookupSRV h service proto name).1 ≠ []

/-- The returned error `err` carries the error `e`: it is a value of
`errors.Join` that wraps `e`. -/
def carries (err : Option Error) (e : Error) : Prop :=
  ∃ es, err = some (Error.join es) ∧ e ∈ es

/-- What the session contract says of an operation `op` (the outcome of the
whole method run from the caller's history) once `Session` has returned
`session` without error, leaving the history `log1`, where `body` is the rest
of the method. The operation's own error is the error with which `body`
returns and the error of `Close` is the answer of the logout. (1) Whatever the
body does, the history of `op` has exactly one teardown more than `log1`: the
logout of the session's connection followed by its close. (2) When the body
returns, `op` returns the same value with the join of the two errors. (3) When
the body panics, `op` panics after the teardown. -/
def ClosesOnceAndJoins {α : Type} (env : Env) (session : imapSession) (log1 : List Event)
    (body : List Event → Outcome (α × Option Error)) (op : Outcome (α × Option Error)) :
    Prop :=
  ∃ conn, session.Client = some conn ∧
    teardown op.log = teardown log1 ++ [.logout conn, .close conn] ∧
    (∀ r opErr l1, body log1 = .ret (r, opErr) l1 →
      op = .ret (r, errorsJoin [opErr, env.logout l1 conn])
        (l1 ++ [.logout conn, .close conn])) ∧
    (∀ l1, body log1 = .panic l1 → op = .panic (l1 ++ [.logout conn, .close conn]))

/-- The UID of the message at sequence number `n` (counted from 1) of a mailbox
whose messages have the UIDs `box`, in sequence order. -/
def uidAt (box : List Nat) (n : Nat) : Nat := box.getD (n - 1) 0

/-- The server answers every fetch of sequence numbers of the mailbox `box`,
asking for the UID only, with exactly the UIDs of the requested positions, in
any order. -/
def AnswersSeqFetch (env : Env) (conn : Conn) (box : List Nat) : Prop :=
  ∀ (h : List Event) (nums : List Nat), (∀ n ∈ nums, 1 ≤ n ∧ n ≤ box.length) →
    ∃ msgs, env.fetch h conn (.seq nums) uidOptions = .ok msgs ∧
      (msgs.map fun m => m.UID).Perm (nums.map (uidAt box))

/-- The server answers every metadata fetch by UID with one record for each
requested UID, in any order. -/
def AnswersMetadataFetch (env : Env) (conn : Conn) : Prop :=
  ∀ (h : List Event) (uids : List Nat),
    ∃ msgs, env.fetch h conn (.uid uids) metadataOptions = .ok msgs ∧
      (msgs.map fun m => m.UID).Perm uids

/-- A world for the examples, parametrised by the number of messages that
selection reports. The retrieval service of example.com has one record and
the lookup for any other domain fails; dial, login and logout succeed; the server lists five entries, INBOX twice; the
message at sequence number `n` has UID `n`; a metadata fetch answers the
requested UIDs in ascending order, whatever the order of the request. -/
def exampleEnv (numMessages : Nat) : Env where
  lookupSRV := fun _ _ _ name =>
    if name = "example.com" then ([⟨"imap.example.com.", 993⟩], none)
    else ([], some (.external 3))
  dialTLS := fun _ _ => .ok 7
  login := fun _ _ _ _ => none
  logout := fun _ _ => none
  list := fun _ _ _ _ => .ok [⟨"Archive"⟩, ⟨"INBOX"⟩, ⟨"Sent"⟩, ⟨"INBOX"⟩, ⟨"Trash"⟩]
  select := fun _ _ _ => .ok ⟨numMessages⟩
  fetch := fun _ _ numSet _ =>
    match numSet with
    | .seq nums => .ok (nums.map fun n => ⟨n, [], none, none, []⟩)
    | .uid uids =>
      .ok ((uids.insertionSort (fun a b => a ≤ b)).map fun u =>
        ⟨u, ["\\Seen"], some ⟨"Subject", [⟨"Bob", "bob", "example.org"⟩]⟩, none, []⟩)
  parseEmail := fun s => .ok s

/-- A client of the example world. -/
def exampleClient : client := ⟨"alice@example.com", "secret"⟩

/-- A client whose domain has no retrieval service in the example world: the
lookup fails. -/
def orphanClient : client := ⟨"carol@example.net", "secret"⟩

/-- The sequence numbers requested by the sequence-number fetches of a history,
one list for each fetch, in the order of the calls. -/
def seqFetches (log : List Event) : List (List Nat) :=
  log.filterMap fun e => match e with
    | .fetch _ (.seq nums) _ => some nums
    | _ => none

/-- The bounds `(start, end)` of the batches that cover the sequence numbers
`1..n` by ranges of `messageLimit` numbers: batch `k` runs from `500 * k` to
`500 * (k + 1)`, cut at `n`. -/
def batchBounds (n : Nat) : List (Nat × Nat) :=
  (List.range ((n + 499) / 500)).map fun k => (500 * k, min (500 * (k + 1)) n)

/-- The sequence numbers `start + 1, ..., end` of a batch. -/
def batchNumbers (b : Nat × Nat) : List Nat := List.range' (b.1 + 1) (b.2 - b.1)

/-- The mailbox that `Mailbox` returns in the example world with 30 messages:
the UIDs 30, 29, ..., 1 and the summaries of the UIDs 30, 29, ..., 6. -/
def exampleMailbox : Mailbox :=
  ⟨"INBOX", (List.range' 1 30).reverse,
    (List.range' 6 25).reverse.map fun u => ⟨u, true, "bob@example.org", "Subject", ""⟩⟩

/-- The history of that call of `Mailbox`. -/
def exampleHistory : List Event :=
  [.lookupSRV "imaps" "tcp" "example.com", .dialTLS "imap.example.com:993",
    .login 7 "alice@example.com" "secret", .select 7 "INBOX",
    .fetch 7 (.seq (List.range' 1 30)) uidOptions,
    .fetch 7 (.uid (List.range' 6 25).reverse) metadataOptions,
    .logout 7, .close 7]

end imap

/-! ## Package smtp -/

namespace smtp

/-- Go `unicode.IsControl`: the control characters are the code points of the
Unicode category Cc, all of them in Latin-1: U+0000..U+001F and
U+007F..U+009F. -/
def IsControl (r : Char) : Bool :=
  if r.toNat ≤ 0xFF then r.toNat ≤ 0x1F || (0x7F ≤ r.toNat && r.toNat ≤ 0x9F) else false

/-- The code point written for a rune returned by a mapping: the rune itself,
or U+FFFD when the value is not a valid code point. -/
def runeToChar (r : Int) : Char :=
  if r.toNat.isValidChar then Char.ofNat r.toNat else Char.ofNat 0xFFFD

/-- Go `strings.Map`: the mapping is applied to every code point in order; a
negative result drops the code point, any other result replaces it. -/
def stringsMap (mapping : Char → Int) (s : String) : String :=
  ⟨s.data.filterMap fun c =>
    let r := mapping c
    if r < 0 then none else some (runeToChar r)⟩

/-- The function `sanitize` of smtp.go. -/
def sanitize (value : String) : String :=
  stringsMap (fun r => if IsControl r then -1 else (r.toNat : Int)) value

/-- The type `client` of smtp.go. -/
structure client where
  Email : String
  Password : String
  Domain : String
  Host : String
  Port : Nat
deriving DecidableEq

/-- The function `emailDomain` of smtp.go. -/
def emailDomain (email : String) : Except Error String :=
  match lastIndex '@' email.data with
  | none => .error .invalidEmailFormat
  | some i => .ok ⟨email.data.drop (i + 1)⟩

/-- The function `NewClient` of smtp.go. -/
def NewClient (email password : String) : client × Option Error :=
  match emailDomain email with
  | .error e => (⟨"", "", "", "", 0⟩, some e)
  | .ok domain => (⟨email, password, domain, "", 0⟩, none)

/-- The method `client.WithServer`. -/
def client.WithServer (c : client) (host : String) (port : Nat) : client :=
  ⟨c.Email, c.Password, c.Domain, host, port⟩

/-- A parsed address (`mail.Address`). -/
structure MailAddress where
  Name : String
  Address : String
deriving DecidableEq

/-- The calls made to collaborators by package smtp. -/
inductive Event where
  | lookupSRV (service proto name : String)
  | now
  | randRead
  | sendMailTLS (addr username password sender : String) (rcpt : List String) (msg : String)
deriving DecidableEq

/-- The collaborators of package smtp: DNS, the clock (`time.Now().UTC()` as
Unix seconds), the random source (`rand.Read` of 16 bytes), the address parser
and formatter of `net/mail`, the encoders of `mime` and `quotedprintable`, the
date format RFC1123Z, and `smtp.SendMailTLS` with SASL PLAIN. -/
structure Env where
  lookupSRV : List Event → String → String → String → List SRV × Option Error
  now : List Event → Int
  randRead : List Event → Except Error (List Nat)
  parseAddress : String → Except Error MailAddress
  addressString : MailAddress → String
  qEncode : String → String
  formatRFC1123Z : Int → String
  quotedPrintable : String → Except Error String
  sendMailTLS : List Event → String → String → String → String → List String → String →
    Option Error

/-- The function `toRFC2047`. -/
def toRFC2047 (env : Env) (s : String) : String := env.qEncode s

/-- One hexadecimal digit in lower case. -/
def hexDigit (n : Nat) : Char :=
  if n < 10 then Char.ofNat (48 + n) else Char.ofNat (87 + n)

/-- The verb `%x` of `fmt` applied to a byte slice. -/
def hexBytes (bs : List Nat) : String :=
  ⟨bs.flatMap fun b => [hexDigit (b / 16 % 16), hexDigit (b % 16)]⟩

/-- The function `newMessageID`. -/
def newMessageID (env : Env) (domain : String) (log : List Event) :
    Except Error String × List Event :=
  let unix := env.now log
  match env.randRead (log ++ [.now]) with
  | .error e => (.error e, log ++ [.now, .randRead])
  | .ok rnd =>
    (.ok ("<" ++ toString unix ++ "." ++ hexBytes rnd ++ "@" ++ domain ++ ">"),
      log ++ [.now, .randRead])

/-- The function `encodeBody`: the quoted-printable encoding of the body is
written to the buffer `buf`; the result is the buffer and the error. -/
def encodeBody (env : Env) (body : String) (buf : String) : String × Option Error :=
  match env.quotedPrintable body with
  | .error e => (buf, some e)
  | .ok encoded => (buf ++ encoded, none)

/-- The header lines written by `send`, each followed by CR LF. Go visits the
map of headers in an unspecified order; the lines are given here in the order
of the source text. -/
def headerLines (headers : List (String × String)) : String :=
  headers.foldl (fun buf kv => buf ++ kv.1 ++ ": " ++ kv.2 ++ "\r\n") ""

/-- The method `client.send`: direct delivery to the server of the composer. -/
def client.send (env : Env) (c : client) (sender rcpt subject body : String)
    (log : List Event) : Option Error × List Event :=
  let sender := sanitize sender
  let rcpt := sanitize rcpt
  let subject := sanitize subject
  match newMessageID env c.Domain log with
  | (.error e, log1) => (some e, log1)
  | (.ok mid, log1) =>
    match env.parseAddress sender with
    | .error e => (some e, log1)
    | .ok fromAddr =>
      match env.parseAddress rcpt with
      | .error e => (some e, log1)
      | .ok toAddr =>
        let date := env.formatRFC1123Z (env.now log1)
        let headers := [
          ("From", env.addressString fromAddr),
          ("To", env.addressString toAddr),
          ("Subject", toRFC2047 env subject),
          ("Date", date),
          ("Message-ID", mid),
          ("MIME-Version", "1.0"),
          ("Content-Type", "text/plain; charset=utf-8"),
          ("Content-Transfer-Encoding", "quoted-printable")]
        match encodeBody env body (headerLines headers ++ "\r\n") with
        | (_, some e) => (some e, log1 ++ [.now])
        | (msg, none) =>
          let addr := c.Host ++ ":" ++ toString c.Port
          (env.sendMailTLS (log1 ++ [.now]) addr c.Email c.Password fromAddr.Address
              [toAddr.Address] msg,
            log1 ++ [.now,
              .sendMailTLS addr c.Email c.Password fromAddr.Address [toAddr.Address] msg])

/-- The candidate loop of `Send` (lines 176-189); the second argument is `err`
before the remaining candidates are tried. The call `client.Send` on the
server-bound composer re-enters `Send` with a host that is not empty, which is
the direct delivery `client.send`. -/
def sendLoop (env : Env) (c : client) (sender rcpt subject body : String) :
    List SRV → Option Error → List Event → Option Error × List Event
  | [], err, log => (err, log)
  | srv :: rest, _, log =>
    let target := trimSuffix srv.Target "."
    if target = "" then
      sendLoop env c sender rcpt subject body rest (some .srvRecordDoesNotExist) log
    else
      match (c.WithServer target srv.Port).send env sender rcpt subject body log with
      | (none, log1) => (none, log1)
      | (some e, log1) => sendLoop env c sender rcpt subject body rest (some e) log1

/-- The method `client.Send`. -/
def client.Send (env : Env) (c : client) (sender rcpt subject body : String)
    (log : List Event) : Option Error × List Event :=
  if c.Host ≠ "" then c.send env sender rcpt subject body log
  else
    let r := env.lookupSRV log "submissions" "tcp" c.Domain
    match r.2 with
    | some e => (some e, log ++ [.lookupSRV "submissions" "tcp" c.Domain])
    | none =>
      sendLoop env c sender rcpt subject body r.1 none
        (log ++ [.lookupSRV "submissions" "tcp" c.Domain])

/-! ### One candidate of the submission service, as the specification reads it -/

/-- The attempt on one candidate from the history `log`: a candidate whose
target name is empty once a trailing dot is removed fails at once with
`srvRecordDoesNotExist` and makes no call; any other candidate is handed to
the direct delivery of the composer bound to that target and port. -/
def attempt (env : Env) (c : client) (sender rcpt subject body : String) (srv : SRV)
    (log : List Event) : Option Error × List Event :=
  if trimSuffix srv.Target "." = "" then (some .srvRecordDoesNotExist, log)
  else (c.WithServer (trimSuffix srv.Target ".") srv.Port).send env sender rcpt subject body log

/-- The history after the candidates of a list have been attempted one after
the other, in the order of the list. -/
def historyAfter (env : Env) (c : client) (sender rcpt subject body : String) :
    List SRV → List Event → List Event
  | [], log => log
  | srv :: rest, log =>
    historyAfter env c sender rcpt subject body rest
      (attempt env c sender rcpt subject body srv log).2

/-- Every candidate of the list, attempted one after the other from the
history `log`, fails. -/
def allFail (env : Env) (c : client) (sender rcpt subject body : String) :
    List SRV → List Event → Bool
  | [], _ => true
  | srv :: rest, log =>
    (attempt env c sender rcpt subject body srv log).1.isSome &&
      allFail env c sender rcpt subject body rest
        (attempt env c sender rcpt subject body srv log).2

/-- The contract of Go's `net.LookupSRV`: a nil error comes with at least one
record. A lookup that finds no SRV record does not answer with an empty list;
it fails (with the error "no such host"). -/
def ResolverContract (env : Env) : Prop :=
  ∀ (h : List Event) (service proto name : String),
    (env.lookupSRV h service proto name).2 = none →
    (env.lookupSRV h service proto name).1 ≠ []

/-- The number of connections opened for delivery in a history. -/
def deliveries (log : List Event) : Nat :=
  log.countP fun e => match e with
    | .sendMailTLS _ _ _ _ _ _ => true
    | _ => false

/-- A world for the examples: the submission service of example.com has four
records, the first with the root name as target, and the lookup for any other
domain fails; the server smtp1 refuses the connection and the server smtp2
accepts the message. -/
def exampleEnv : Env where
  lookupSRV := fun _ _ _ name =>
    if name = "example.com" then
      ([⟨".", 0⟩, ⟨"smtp1.example.com.", 465⟩, ⟨"smtp2.example.com.", 465⟩,
        ⟨"smtp3.example.com.", 465⟩], none)
    else ([], some (.external 3))
  now := fun _ => 1700000000
  randRead := fun _ => .ok [0, 1, 2, 3, 4, 5, 6, 7, 8, 9, 10, 11, 12, 13, 14, 255]
  parseAddress := fun s => .ok ⟨"", s⟩
  addressString := fun a => "<" ++ a.Address ++ ">"
  qEncode := fun s => s
  formatRFC1123Z := fun _ => "Tue, 14 Nov 2023 22:13:20 +0000"
  quotedPrintable := fun s => .ok s
  sendMailTLS := fun _ addr _ _ _ _ _ =>
    if addr = "smtp2.example.com:465" then none else some (.external 111)

/-- A composer for alice@example.com without server override. -/
def exampleClient : client := ⟨"alice@example.com", "secret", "example.com", "", 0⟩

/-- A composer whose domain has no submission service in `exampleEnv`: the
lookup fails. -/
def orphanClient : client := ⟨"carol@example.net", "secret", "example.net", "", 0⟩

end smtp

end TinyMail

namespace TinyMail

namespace imap

theorem mediaType_multiPart_ne_plain (cs : List BodyStructure) (st : String) :
    (BodyStructure.multiPart cs st).MediaType ≠ "text/plain" := by
  intro h
  have := congrArg String.data h
  simp [BodyStructure.MediaType, String.data_append] at this

theorem mediaType_multiPart_ne_rfc822 (cs : List BodyStructure) (st : String) :
    (BodyStructure.multiPart cs st).MediaType ≠ "message/rfc822" := by
  intro h
  have := congrArg String.data h
  simp [BodyStructure.MediaType, String.data_append] at this

mutual
theorem filter_inside (path : List Nat) : ∀ bs : BodyStructure,
    (bs.preorder path true).filter isCandidate = []
  | .singlePart t st none => by simp [BodyStructure.preorder, isCandidate]
  | .singlePart t st (some e) => by
    simp only [BodyStructure.preorder]
    split
    · simp [isCandidate, filter_inside (path ++ [1]) e]
    · simp [isCandidate]
  | .multiPart cs st => by
    simp [BodyStructure.preorder, isCandidate, filter_inside_children path 0 cs]
theorem filter_inside_children (path : List Nat) (i : Nat) : ∀ cs : List BodyStructure,
    (BodyStructure.preorderChildren path true i cs).filter isCandidate = []
  | [] => by simp [BodyStructure.preorderChildren]
  | part :: rest => by
    simp [BodyStructure.preorderChildren, filter_inside (path ++ [i+1]) part,
      filter_inside_children path (i+1) rest]
end

theorem visit_of_ne_nil (s path : List Nat) (bs : BodyStructure) (h : s ≠ []) :
    findPlainTextPath.visit s path bs = (s, false) := by
  simp [findPlainTextPath.visit, h]

mutual
theorem walk_of_ne_nil (s : List Nat) (h : s ≠ []) (path : List Nat) : ∀ bs : BodyStructure,
    bs.walk findPlainTextPath.visit s path = s
  | .singlePart t st m => by simp [BodyStructure.walk, visit_of_ne_nil _ _ _ h]
  | .multiPart cs st => by simp [BodyStructure.walk, visit_of_ne_nil _ _ _ h]
theorem walkChildren_of_ne_nil (s : List Nat) (h : s ≠ []) (path : List Nat) (i : Nat) :
    ∀ cs : List BodyStructure, BodyStructure.walkChildren findPlainTextPath.visit s path i cs = s
  | [] => by simp [BodyStructure.walkChildren]
  | part :: rest => by
    simp [BodyStructure.walkChildren, walk_of_ne_nil s h (path ++ [i+1]) part,
      walkChildren_of_ne_nil s h path (i+1) rest]
end

mutual
theorem preorder_path_ne_nil (path : List Nat) (hp : path ≠ []) (b : Bool) :
    ∀ bs : BodyStructure, ∀ n ∈ bs.preorder path b, n.1 ≠ []
  | .singlePart t st none => by simp [BodyStructure.preorder, hp]
  | .singlePart t st (some e) => by
    simp only [BodyStructure.preorder]
    split
    · intro n hn
      rcases List.mem_cons.1 hn with h | h
      · simp [h, hp]
      · exact preorder_path_ne_nil (path ++ [1]) (by simp) true e n h
    · simp [hp]
  | .multiPart cs st => by
    simp only [BodyStructure.preorder]
    intro n hn
    rcases List.mem_cons.1 hn with h | h
    · simp [h, hp]
    · exact preorderChildren_path_ne_nil path _ 0 cs n h
theorem preorderChildren_path_ne_nil (path : List Nat) (b : Bool) (i : Nat) :
    ∀ cs : List BodyStructure, ∀ n ∈ BodyStructure.preorderChildren path b i cs, n.1 ≠ []
  | [] => by simp [BodyStructure.preorderChildren]
  | part :: rest => by
    simp only [BodyStructure.preorderChildren]
    intro n hn
    rcases List.mem_append.1 hn with h | h
    · exact preorder_path_ne_nil (path ++ [i+1]) (by simp) b part n h
    · exact preorderChildren_path_ne_nil path b (i+1) rest n h
end

theorem firstPath_append (l₁ l₂ : List (List Nat × Bool × BodyStructure))
    (h : ∀ n ∈ l₁, n.1 ≠ []) :
    firstPath (l₁ ++ l₂) = if firstPath l₁ ≠ [] then firstPath l₁ else firstPath l₂ := by
  unfold firstPath
  rw [List.filter_append, List.map_append]
  cases hf : (l₁.filter isCandidate) with
  | nil => simp
  | cons a t =>
    have ha : a ∈ l₁ := (List.mem_filter.1 (hf ▸ List.mem_cons_self a t)).1
    simp [h a ha]

mutual
theorem walk_eq_firstPath (path : List Nat) : ∀ bs : BodyStructure,
    bs.walk findPlainTextPath.visit [] path = firstPath (bs.preorder path false)
  | .singlePart t st none => by
    simp only [BodyStructure.walk, BodyStructure.preorder, findPlainTextPath.visit, firstPath]
    by_cases h : (BodyStructure.singlePart t st none).MediaType = "text/plain" <;>
      simp [h, isCandidate, List.filter_cons]
  | .singlePart t st (some e) => by
    simp only [BodyStructure.walk, BodyStructure.preorder, findPlainTextPath.visit, firstPath]
    have hin := filter_inside (path ++ [1]) e
    by_cases h : (BodyStructure.singlePart t st (some e)).MediaType = "text/plain"
    · simp [h, isCandidate, List.filter_cons]
    · by_cases h2 : (BodyStructure.singlePart t st (some e)).MediaType = "message/rfc822"
      · simp [h, h2, isCandidate, List.filter_cons, hin]
      · simp [h, h2, isCandidate, List.filter_cons]
  | .multiPart cs st => by
    have h1 := mediaType_multiPart_ne_plain cs st
    have h2 := mediaType_multiPart_ne_rfc822 cs st
    have h3 := walkChildren_eq_firstPath path 0 cs
    have h4 : ((BodyStructure.multiPart cs st).MediaType == "message/rfc822") = false := by
      simpa using h2
    simp only [firstPath] at h3
    simp [BodyStructure.walk, BodyStructure.preorder, findPlainTextPath.visit, h1, h2,
      firstPath, isCandidate, List.filter_cons, h3, h4]
theorem walkChildren_eq_firstPath (path : List Nat) (i : Nat) : ∀ cs : List BodyStructure,
    BodyStructure.walkChildren findPlainTextPath.visit [] path i cs =
      firstPath (BodyStructure.preorderChildren path false i cs)
  | [] => by simp [BodyStructure.walkChildren, BodyStructure.preorderChildren, firstPath]
  | part :: rest => by
    simp only [BodyStructure.walkChildren, BodyStructure.preorderChildren]
    rw [firstPath_append _ _ (preorder_path_ne_nil (path ++ [i+1]) (by simp) false part),
      walk_eq_firstPath (path ++ [i+1]) part]
    by_cases h : firstPath (part.preorder (path ++ [i+1]) false) = []
    · simp [h, walkChildren_eq_firstPath path (i+1) rest]
    · simp [h, walkChildren_of_ne_nil _ h]
end

theorem findPlainTextPath_eq (bs : BodyStructure) :
    findPlainTextPath bs = ((plainTextCandidates bs).head?).getD [] := by
  cases bs with
  | singlePart t st m =>
    have := walk_eq_firstPath [1] (.singlePart t st m)
    simpa [findPlainTextPath, BodyStructure.Walk, BodyStructure.walk, plainTextCandidates,
      BodyStructure.rootPath, firstPath] using this
  | multiPart cs st =>
    have := walk_eq_firstPath [] (.multiPart cs st)
    simpa [findPlainTextPath, BodyStructure.Walk, plainTextCandidates,
      BodyStructure.rootPath, firstPath] using this

theorem nil_not_mem_candidates (bs : BodyStructure) : [] ∉ plainTextCandidates bs := by
  intro h
  simp only [plainTextCandidates, List.mem_map, List.mem_filter] at h
  obtain ⟨n, ⟨hn, hc⟩, hnil⟩ := h
  cases bs with
  | singlePart t st m =>
    exact preorder_path_ne_nil [1] (by simp) false _ n hn hnil
  | multiPart cs st =>
    simp only [BodyStructure.rootPath, BodyStructure.preorder] at hn
    rcases List.mem_cons.1 hn with h | h
    · subst h
      simp [isCandidate, mediaType_multiPart_ne_plain] at hc
    · exact preorderChildren_path_ne_nil [] _ 0 cs n h hnil

/-- C1: `findPlainTextPath` returns the path of the first node, in depth-first
pre-order, whose media type is text/plain and which has no message/rfc822
ancestor, and it returns nil exactly when the tree has no such node. A
text/plain part that is the sole child of a message/rfc822 node is not
selected, alone or below a container, and for multipart/alternative with the
children text/html and text/plain the result is `[2]`. -/
theorem findPlainTextPath_first_candidate :
    (∀ bs : BodyStructure,
      findPlainTextPath bs = ((plainTextCandidates bs).head?).getD [] ∧
      (findPlainTextPath bs = [] ↔ plainTextCandidates bs = []) ∧
      (∀ p rest, plainTextCandidates bs = p :: rest → findPlainTextPath bs = p ∧ p ≠ [])) ∧
    findPlainTextPath
      (.singlePart "message" "rfc822" (some (.singlePart "text" "plain" none))) = [] ∧
    findPlainTextPath
      (.multiPart [.singlePart "message" "rfc822" (some (.singlePart "text" "plain" none))]
        "mixed") = [] ∧
    findPlainTextPath
      (.multiPart [.singlePart "text" "html" none, .singlePart "text" "plain" none]
        "alternative") = [2] ∧
    (BodyStructure.singlePart "message" "rfc822"
      (some (.singlePart "text" "plain" none))).preorder [1] false =
      [([1], false, .singlePart "message" "rfc822" (some (.singlePart "text" "plain" none))),
       ([1, 1], true, .singlePart "text" "plain" none)] := by
  refine ⟨fun bs => ⟨findPlainTextPath_eq bs, ?_, ?_⟩, by decide, by decide, by decide, ?_⟩
  · rw [findPlainTextPath_eq]
    have hn := nil_not_mem_candidates bs
    cases h : plainTextCandidates bs with
    | nil => simp
    | cons p rest =>
      rw [h] at hn
      have : p ≠ [] := fun hp => hn (by simp [hp])
      simp [this]
  · intro p rest h
    have hn := nil_not_mem_candidates bs
    rw [findPlainTextPath_eq, h]
    rw [h] at hn
    exact ⟨by simp, fun hp => hn (by simp [hp])⟩
  · simp [BodyStructure.preorder]
    decide

end imap

end TinyMail

namespace TinyMail

namespace imap

/-! ### Session -/

theorem dialLoop_result (env : Env) :
    ∀ (srvs : List SRV) (cl : Option Conn) (err : Option Error) (log : List Event),
      (∃ conn l, dialLoop env srvs cl err log = (some conn, none, l)) ∨
      (∃ e l, dialLoop env srvs cl err log = (none, some e, l)) ∨
      (srvs = [] ∧ dialLoop env srvs cl err log = (cl, err, log))
  | [], cl, err, log => Or.inr (Or.inr ⟨rfl, rfl⟩)
  | srv :: rest, cl, err, log => by
    simp only [dialLoop]
    cases hd : env.dialTLS log (trimSuffix srv.Target "." ++ ":" ++ toString srv.Port) with
    | ok conn => exact Or.inl ⟨conn, _, rfl⟩
    | error e =>
      simp only
      rcases dialLoop_result env rest none (some e)
        (log ++ [.dialTLS (trimSuffix srv.Target "." ++ ":" ++ toString srv.Port), .logPrintf])
        with h | h | h
      · exact Or.inl h
      · exact Or.inr (Or.inl h)
      · exact Or.inr (Or.inl ⟨e, _, h.2⟩)

theorem Session_ok_client (env : Env) (c : client) (log log1 : List Event)
    (session : imapSession) (h : c.Session env log = .ret (session, none) log1) :
    ∃ conn, session.Client = some conn := by
  unfold client.Session at h
  split at h
  · cases h
  · dsimp only at h
    split at h
    · cases h
    · split at h
      · cases h
      · cases h
      · split at h
        · cases h; exact ⟨_, rfl⟩
        · cases h

theorem Session_lookup_error (env : Env) (c : client) (log : List Event) (domain : String)
    (srvs : List SRV) (e : Error) (hd : emailDomain c.Email = .ok domain)
    (hl : env.lookupSRV log "imaps" "tcp" domain = (srvs, some e)) :
    c.Session env log = .ret (⟨none⟩, some e) (log ++ [.lookupSRV "imaps" "tcp" domain]) := by
  simp [client.Session, hd, hl]

theorem logins_append (l₁ l₂ : List Event) : logins (l₁ ++ l₂) = logins l₁ ++ logins l₂ := by
  simp [logins]

theorem dialLoop_spec (env : Env) :
    ∀ (srvs : List SRV) (cl : Option Conn) (err : Option Error) (log : List Event),
      srvs ≠ [] →
      (∃ conn addr h, env.dialTLS h addr = .ok conn ∧
        dialLoop env srvs cl err log = (some conn, none, h ++ [.dialTLS addr]) ∧
        logins h = logins log) ∨
      (∃ e l, dialLoop env srvs cl err log = (none, some e, l) ∧ logins l = logins log)
  | [], _, _, _, hne => absurd rfl hne
  | srv :: rest, cl, err, log, _ => by
    cases hd : env.dialTLS log (trimSuffix srv.Target "." ++ ":" ++ toString srv.Port) with
    | ok conn =>
      refine Or.inl ⟨conn, _, log, hd, ?_, rfl⟩
      simp [dialLoop, hd]
    | error e =>
      have hlog : logins (log ++
          [.dialTLS (trimSuffix srv.Target "." ++ ":" ++ toString srv.Port), .logPrintf]) =
          logins log := by
        simp [logins]
      cases rest with
      | nil =>
        refine Or.inr ⟨e, _, ?_, hlog⟩
        simp [dialLoop, hd]
      | cons srv2 rest2 =>
        rcases dialLoop_spec env (srv2 :: rest2) none (some e) _ (by simp) with
          ⟨conn, addr, h, h1, h2, h3⟩ | ⟨e2, l, h1, h2⟩
        · refine Or.inl ⟨conn, addr, h, h1, ?_, h3.trans hlog⟩
          rw [← h2]
          simp [dialLoop, hd]
        · refine Or.inr ⟨e2, l, ?_, h2.trans hlog⟩
          rw [← h1]
          simp [dialLoop, hd]

/-- C8: under the contract of Go's resolver (a nil error comes with at least
one record). First, for an address with an `@`, when the lookup of the
retrieval service fails or yields no candidate, `Session` returns the lookup
error with a nil client, and its history gains the lookup and nothing else: no
dial and no login. Second, `Session` always returns, and either it made no
login call and returns an error with a nil client, or its only login call is
on the connection that the dial just before it returned. -/
theorem Session_login_only_after_dial (env : Env) (c : client) (log : List Event)
    (hres : ResolverContract env) :
    (∀ domain, emailDomain c.Email = .ok domain →
      ((env.lookupSRV log "imaps" "tcp" domain).2 ≠ none ∨
        (env.lookupSRV log "imaps" "tcp" domain).1 = []) →
      ∃ e, (env.lookupSRV log "imaps" "tcp" domain).2 = some e ∧
        c.Session env log =
          .ret (⟨none⟩, some e) (log ++ [.lookupSRV "imaps" "tcp" domain]) ∧
        logins (c.Session env log).log = logins log) ∧
    (∃ session err l, c.Session env log = .ret (session, err) l ∧
      ((session.Client = none ∧ err ≠ none ∧ logins l = logins log) ∨
        (∃ conn addr h, env.dialTLS h addr = .ok conn ∧ session.Client = some conn ∧
          logins h = logins log ∧
          logins l = logins log ++ [.login conn c.Email c.Password] ∧
          (h ++ [.dialTLS addr, .login conn c.Email c.Password]) <+: l))) := by
  constructor
  · intro domain hd hnone
    cases herr : (env.lookupSRV log "imaps" "tcp" domain).2 with
    | none =>
      rcases hnone with h | h
      · exact absurd herr h
      · exact absurd h (hres log "imaps" "tcp" domain herr)
    | some e =>
      have hS : c.Session env log =
          .ret (⟨none⟩, some e) (log ++ [.lookupSRV "imaps" "tcp" domain]) := by
        simp [client.Session, hd, herr]
      refine ⟨e, rfl, hS, ?_⟩
      rw [hS]
      simp [Outcome.log, logins]
  · cases hd : emailDomain c.Email with
    | error e =>
      refine ⟨⟨none⟩, some e, log, ?_, Or.inl ⟨rfl, by simp, rfl⟩⟩
      simp [client.Session, hd]
    | ok domain =>
      have hl1 : logins (log ++ [.lookupSRV "imaps" "tcp" domain]) = logins log := by
        simp [logins]
      cases herr : (env.lookupSRV log "imaps" "tcp" domain).2 with
      | some e =>
        refine ⟨⟨none⟩, some e, _, ?_, Or.inl ⟨rfl, by simp, hl1⟩⟩
        simp [client.Session, hd, herr]
      | none =>
        have hne := hres log "imaps" "tcp" domain herr
        rcases dialLoop_spec env (env.lookupSRV log "imaps" "tcp" domain).1 none none
          (log ++ [.lookupSRV "imaps" "tcp" domain]) hne with
          ⟨conn, addr, h, h1, h2, h3⟩ | ⟨e, l, h1, h2⟩
        · cases hlogin : env.login (h ++ [.dialTLS addr]) conn c.Email c.Password with
          | none =>
            refine ⟨⟨some conn⟩, none, h ++ [.dialTLS addr] ++ [.login conn c.Email c.Password],
              ?_, Or.inr ⟨conn, addr, h, h1, rfl, h3.trans hl1, ?_, ?_⟩⟩
            · simp [client.Session, hd, herr, h2, hlogin]
            · rw [logins_append, logins_append, h3.trans hl1]
              simp [logins]
            · simp
          | some e =>
            refine ⟨⟨some conn⟩, some e,
              h ++ [.dialTLS addr] ++ [.login conn c.Email c.Password, .close conn],
              ?_, Or.inr ⟨conn, addr, h, h1, rfl, h3.trans hl1, ?_, ?_⟩⟩
            · simp [client.Session, hd, herr, h2, hlogin]
            · rw [logins_append, logins_append, h3.trans hl1]
              simp [logins]
            · exact ⟨[.close conn], by simp⟩
        · refine ⟨⟨none⟩, some e, l, ?_, Or.inl ⟨rfl, by simp, h2.trans hl1⟩⟩
          simp [client.Session, hd, herr, h1]

theorem imap_exampleEnv_resolver (n : Nat) : ResolverContract (exampleEnv n) := by
  intro h service proto name
  simp only [exampleEnv]
  split <;> simp

/-- Witness of C8 in the example world, which meets the contract of the
resolver: the lookup of the retrieval service of example.net fails, and
`Session` returns that error after the lookup alone, without any login. -/
theorem Session_login_only_after_dial_witness :
    ResolverContract (exampleEnv 30) ∧
    orphanClient.Session (exampleEnv 30) [] =
      .ret (⟨none⟩, some (.external 3)) [.lookupSRV "imaps" "tcp" "example.net"] ∧
    (∃ e, ((exampleEnv 30).lookupSRV [] "imaps" "tcp" "example.net").2 = some e ∧
      orphanClient.Session (exampleEnv 30) [] =
        .ret (⟨none⟩, some e) ([] ++ [.lookupSRV "imaps" "tcp" "example.net"]) ∧
      logins (orphanClient.Session (exampleEnv 30) []).log = logins []) :=
  ⟨imap_exampleEnv_resolver 30, rfl,
    (Session_login_only_after_dial (exampleEnv 30) orphanClient [] (imap_exampleEnv_resolver 30)).1
      "example.net" rfl (Or.inr rfl)⟩

/-! ### Account -/

theorem appendOthers_eq : ∀ (mailboxes : List ListData) (acc : List Mailbox),
    appendOthers mailboxes acc =
      acc ++ ((mailboxes.map fun m => m.Mailbox).filter (fun n => n ≠ "INBOX")).map
        (fun n => (⟨n, [], []⟩ : Mailbox))
  | [], acc => by simp [appendOthers]
  | mbox :: rest, acc => by
    by_cases h : mbox.Mailbox = "INBOX"
    · simp [appendOthers, h, appendOthers_eq rest acc]
    · simp [appendOthers, h, appendOthers_eq rest, List.filter_cons]

/-! ### The UID-enumeration loop: unfolding -/

theorem uidLoop_done (env : Env) (session : imapSession) (n start : Nat) (uidSet : List Nat)
    (log : List Event) (h : ¬ start < n) :
    uidLoop env session n start uidSet log = .ret (uidSet, none) log := by
  rw [uidLoop]
  simp [h]

theorem uidLoop_panic (env : Env) (session : imapSession) (n start : Nat) (uidSet : List Nat)
    (log l : List Event) (h : start < n)
    (hf : session.fetchUIDs env start
      (if uint32 (start + messageLimit) > n then n else uint32 (start + messageLimit)) log =
        .panic l) :
    uidLoop env session n start uidSet log = .panic l := by
  rw [uidLoop]
  simp only [h, if_true]
  split
  · next l2 h2 => rw [hf] at h2; cases h2; rfl
  · next b e l2 h2 => rw [hf] at h2; cases h2
  · next b l2 h2 => rw [hf] at h2; cases h2

theorem uidLoop_error (env : Env) (session : imapSession) (n start : Nat) (uidSet : List Nat)
    (log l : List Event) (batch : List Nat) (e : Error) (h : start < n)
    (hf : session.fetchUIDs env start
      (if uint32 (start + messageLimit) > n then n else uint32 (start + messageLimit)) log =
        .ret (batch, some e) l) :
    uidLoop env session n start uidSet log = .ret (uidSet, some e) l := by
  rw [uidLoop]
  simp only [h, if_true]
  split
  · next l2 h2 => rw [hf] at h2; cases h2
  · next b e l2 h2 => rw [hf] at h2; cases h2; rfl
  · next b l2 h2 => rw [hf] at h2; cases h2

theorem uidLoop_step (env : Env) (session : imapSession) (n start : Nat) (uidSet : List Nat)
    (log l : List Event) (batch : List Nat) (h : start < n)
    (hf : session.fetchUIDs env start
      (if uint32 (start + messageLimit) > n then n else uint32 (start + messageLimit)) log =
        .ret (batch, none) l) :
    uidLoop env session n start uidSet log =
      uidLoop env session n (uint32 (start + messageLimit)) (batch.foldl insertUID uidSet) l := by
  rw [uidLoop]
  simp only [h, if_true]
  split
  · next l2 h2 => rw [hf] at h2; cases h2
  · next b e l2 h2 => rw [hf] at h2; cases h2
  · next b l2 h2 => rw [hf] at h2; cases h2; rfl

/-! ### Teardown calls -/

theorem teardown_append (l₁ l₂ : List Event) :
    teardown (l₁ ++ l₂) = teardown l₁ ++ teardown l₂ := by
  simp [teardown]

theorem fetch_teardown (env : Env) (s : imapSession) (numSet : NumSet) (options : FetchOptions)
    (log : List Event) : teardown (s.fetch env numSet options log).log = teardown log := by
  unfold imapSession.fetch
  split
  · rfl
  · simp [Outcome.log, teardown]

theorem fetch_ret_teardown (env : Env) (s : imapSession) (numSet : NumSet)
    (options : FetchOptions) (log l : List Event) (r : Except Error (List FetchMessageBuffer))
    (h : s.fetch env numSet options log = .ret r l) : teardown l = teardown log := by
  have := fetch_teardown env s numSet options log
  rwa [h] at this

theorem fetch_panic_teardown (env : Env) (s : imapSession) (numSet : NumSet)
    (options : FetchOptions) (log l : List Event)
    (h : s.fetch env numSet options log = .panic l) : teardown l = teardown log := by
  have := fetch_teardown env s numSet options log
  rwa [h] at this

theorem fetchUIDs_teardown (env : Env) (s : imapSession) (start stop : Nat) (log : List Event) :
    teardown (s.fetchUIDs env start stop log).log = teardown log := by
  unfold imapSession.fetchUIDs
  split
  · rfl
  · dsimp only
    split
    · next h => exact fetch_panic_teardown _ _ _ _ _ _ h
    · next h => exact fetch_ret_teardown _ _ _ _ _ _ _ h
    · next h => exact fetch_ret_teardown _ _ _ _ _ _ _ h

theorem fetchMessages_teardown (env : Env) (s : imapSession) (uids : List Nat)
    (log : List Event) : teardown (s.fetchMessages env uids log).log = teardown log := by
  unfold imapSession.fetchMessages
  split
  · next h => exact fetch_panic_teardown _ _ _ _ _ _ h
  · next h => exact fetch_ret_teardown _ _ _ _ _ _ _ h
  · next h =>
    split
    · exact fetch_ret_teardown _ _ _ _ _ _ _ h
    · exact fetch_ret_teardown _ _ _ _ _ _ _ h

theorem fetchMessages_teardown_of (env : Env) (s : imapSession) (uids : List Nat)
    (log : List Event) (o : Outcome (List Message × Option Error))
    (h : s.fetchMessages env uids log = o) : teardown o.log = teardown log :=
  h ▸ fetchMessages_teardown env s uids log

theorem fetchBodyStructure_teardown (env : Env) (s : imapSession) (uid : Nat)
    (log : List Event) : teardown (s.fetchBodyStructure env uid log).log = teardown log := by
  unfold imapSession.fetchBodyStructure
  split
  · next h => exact fetch_panic_teardown _ _ _ _ _ _ h
  · next h => exact fetch_ret_teardown _ _ _ _ _ _ _ h
  · next h => exact fetch_ret_teardown _ _ _ _ _ _ _ h
  · next h => exact fetch_ret_teardown _ _ _ _ _ _ _ h

theorem fetchMessagePart_teardown (env : Env) (s : imapSession) (uid : Nat) (path : List Nat)
    (log : List Event) :
    teardown (s.fetchMessagePart env uid path log).log = teardown log := by
  unfold imapSession.fetchMessagePart
  split
  · next h => exact fetch_panic_teardown _ _ _ _ _ _ h
  · next h => exact fetch_ret_teardown _ _ _ _ _ _ _ h
  · next h => exact fetch_ret_teardown _ _ _ _ _ _ _ h
  · next h =>
    split
    · exact fetch_ret_teardown _ _ _ _ _ _ _ h
    · split
      · exact fetch_ret_teardown _ _ _ _ _ _ _ h
      · exact fetch_ret_teardown _ _ _ _ _ _ _ h

theorem uidLoop_teardown (env : Env) (session : imapSession) (n : Nat) :
    ∀ (start : Nat) (uidSet : List Nat) (log : List Event),
      teardown (uidLoop env session n start uidSet log).log = teardown log := by
  intro start uidSet log
  induction start, uidSet, log using uidLoop.induct env session n with
  | case1 start uidSet log hlt stop l hf =>
    have ht := fetchUIDs_teardown env session start stop log
    rw [hf] at ht
    rw [uidLoop_panic env session n start uidSet log l hlt hf]
    exact ht
  | case2 start uidSet log hlt stop b e l hf =>
    have ht := fetchUIDs_teardown env session start stop log
    rw [hf] at ht
    rw [uidLoop_error env session n start uidSet log l b e hlt hf]
    exact ht
  | case3 start uidSet log hlt stop b l hf ih =>
    have ht := fetchUIDs_teardown env session start stop log
    rw [hf] at ht
    rw [uidLoop_step env session n start uidSet log l b hlt hf, ih]
    exact ht
  | case4 start uidSet log hlt =>
    rw [uidLoop_done env session n start uidSet log hlt]
    rfl

theorem accountBody_teardown (env : Env) (session : imapSession) (log : List Event) :
    teardown (accountBody env session log).log = teardown log := by
  unfold accountBody
  split
  · rfl
  · split <;> simp [Outcome.log, teardown]

theorem mailboxBody_teardown (env : Env) (session : imapSession) (name : String)
    (log : List Event) : teardown (mailboxBody env session name log).log = teardown log := by
  unfold mailboxBody
  split
  · rfl
  · next conn hc =>
    have hsel : teardown (log ++ [Event.select conn name]) = teardown log := by
      simp [teardown]
    split
    · exact hsel
    · next selected hs =>
      split
      · exact hsel
      · have hl := uidLoop_teardown env session selected.NumMessages 0 []
          (log ++ [.select conn name])
        split
        · next l h => rw [h] at hl; exact hl.trans hsel
        · next u e l h => rw [h] at hl; exact hl.trans hsel
        · next u l h =>
          rw [h] at hl
          dsimp only
          split
          · next l2 h2 =>
            exact (fetchMessages_teardown_of _ _ _ _ _ h2).trans (hl.trans hsel)
          · next m e l2 h2 =>
            exact (fetchMessages_teardown_of _ _ _ _ _ h2).trans (hl.trans hsel)

theorem messagesBody_teardown (env : Env) (session : imapSession) (mailbox : String)
    (uids : List Nat) (log : List Event) :
    teardown (messagesBody env session mailbox uids log).log = teardown log := by
  unfold messagesBody
  split
  · rfl
  · next conn hc =>
    have hsel : teardown (log ++ [Event.select conn mailbox]) = teardown log := by
      simp [teardown]
    split
    · exact hsel
    · exact (fetchMessages_teardown _ _ _ _).trans hsel

theorem messageBody_teardown (env : Env) (session : imapSession) (mailbox : String)
    (uid : Nat) (log : List Event) :
    teardown (messageBody env session mailbox uid log).log = teardown log := by
  unfold messageBody
  split
  · rfl
  · next conn hc =>
    have hsel : teardown (log ++ [Event.select conn mailbox]) = teardown log := by
      simp [teardown]
    split
    · exact hsel
    · have hb := fetchBodyStructure_teardown env session uid (log ++ [.select conn mailbox])
      split
      · next l h => rw [h] at hb; exact hb.trans hsel
      · next x e l h => rw [h] at hb; exact hb.trans hsel
      · next l h => rw [h] at hb; exact hb.trans hsel
      · next bs l h =>
        rw [h] at hb
        split
        · have hm := fetchMessages_teardown env session [uid] l
          split
          · next l2 h2 => rw [h2] at hm; exact hm.trans (hb.trans hsel)
          · next x e l2 h2 => rw [h2] at hm; exact hm.trans (hb.trans hsel)
          · next l2 h2 => rw [h2] at hm; exact hm.trans (hb.trans hsel)
          · next m ms l2 h2 => rw [h2] at hm; exact hm.trans (hb.trans hsel)
        · exact (fetchMessagePart_teardown _ _ _ _ _).trans (hb.trans hsel)

/-! ### The deferred close -/

theorem deferClose_spec {α : Type} (env : Env) (session : imapSession) (conn : Conn)
    (hc : session.Client = some conn) (body : List Event → Outcome (α × Option Error))
    (log1 : List Event) (hb : teardown (body log1).log = teardown log1) :
    ClosesOnceAndJoins env session log1 body (deferClose env session body log1) := by
  refine ⟨conn, hc, ?_, ?_, ?_⟩
  · unfold deferClose
    cases hbody : body log1 with
    | ret v l =>
      obtain ⟨a, err⟩ := v
      rw [hbody] at hb
      simp only [imapSession.Close, hc, Outcome.log, teardown_append]
      rw [show teardown l = teardown log1 from hb]
      simp [teardown]
    | panic l =>
      rw [hbody] at hb
      simp only [imapSession.Close, hc, Outcome.log, teardown_append]
      rw [show teardown l = teardown log1 from hb]
      simp [teardown]
  · intro r opErr l1 h
    simp [deferClose, h, imapSession.Close, hc]
  · intro l1 h
    simp [deferClose, h, imapSession.Close, hc, Outcome.log]

theorem errorsJoin_pair (a b : Option Error) :
    (errorsJoin [a, b] = none ↔ a = none ∧ b = none) ∧
    (∀ e, a = some e → carries (errorsJoin [a, b]) e) ∧
    (∀ e, b = some e → carries (errorsJoin [a, b]) e) := by
  cases a <;> cases b <;> simp [errorsJoin, carries]

theorem Account_of_session (env : Env) (c : client) (log log1 : List Event)
    (session : imapSession) (h : c.Session env log = .ret (session, none) log1) :
    c.Account env log = deferClose env session (accountBody env session) log1 := by
  simp [client.Account, h]

theorem Mailbox_of_session (env : Env) (c : client) (name : String) (log log1 : List Event)
    (session : imapSession) (h : c.Session env log = .ret (session, none) log1) :
    c.Mailbox env name log = deferClose env session (mailboxBody env session name) log1 := by
  simp [client.Mailbox, h]

theorem Messages_of_session (env : Env) (c : client) (mailbox : String) (uids : List Nat)
    (log log1 : List Event) (session : imapSession)
    (h : c.Session env log = .ret (session, none) log1) :
    c.Messages env mailbox uids log =
      deferClose env session (messagesBody env session mailbox uids) log1 := by
  simp [client.Messages, h]

theorem Message_of_session (env : Env) (c : client) (mailbox : String) (uid : Nat)
    (log log1 : List Event) (session : imapSession)
    (h : c.Session env log = .ret (session, none) log1) :
    c.Message env mailbox uid log =
      deferClose env session (messageBody env session mailbox uid) log1 := by
  simp [client.Message, h]

/-- C9: once `Session` has succeeded, each of `Account`, `Mailbox`, `Messages`
and `Message` calls the session's `Close` exactly once on every path through
its body (return with or without error, panic): the history gains exactly one
logout and one close of the session's connection. The error handed to the
caller is `errors.Join` of the body's error and the logout error, which is nil
exactly when both are nil and carries each of them that is not nil. -/
theorem operations_close_once_and_join (env : Env) (c : client) (log log1 : List Event)
    (session : imapSession) (h : c.Session env log = .ret (session, none) log1) :
    ClosesOnceAndJoins env session log1 (accountBody env session) (c.Account env log) ∧
    (∀ name, ClosesOnceAndJoins env session log1 (mailboxBody env session name)
      (c.Mailbox env name log)) ∧
    (∀ mailbox uids, ClosesOnceAndJoins env session log1
      (messagesBody env session mailbox uids) (c.Messages env mailbox uids log)) ∧
    (∀ mailbox uid, ClosesOnceAndJoins env session log1
      (messageBody env session mailbox uid) (c.Message env mailbox uid log)) ∧
    (∀ a b : Option Error,
      (errorsJoin [a, b] = none ↔ a = none ∧ b = none) ∧
      (∀ e, a = some e → carries (errorsJoin [a, b]) e) ∧
      (∀ e, b = some e → carries (errorsJoin [a, b]) e)) := by
  obtain ⟨conn, hc⟩ := Session_ok_client env c log log1 session h
  refine ⟨?_, ?_, ?_, ?_, errorsJoin_pair⟩
  · rw [Account_of_session env c log log1 session h]
    exact deferClose_spec env session conn hc _ log1 (accountBody_teardown env session log1)
  · intro name
    rw [Mailbox_of_session env c name log log1 session h]
    exact deferClose_spec env session conn hc _ log1 (mailboxBody_teardown env session name log1)
  · intro mailbox uids
    rw [Messages_of_session env c mailbox uids log log1 session h]
    exact deferClose_spec env session conn hc _ log1
      (messagesBody_teardown env session mailbox uids log1)
  · intro mailbox uid
    rw [Message_of_session env c mailbox uid log log1 session h]
    exact deferClose_spec env session conn hc _ log1
      (messageBody_teardown env session mailbox uid log1)

/-- Witness of C9 in the example world: the session of alice@example.com is
established on connection 7, and `Account` ends with one logout and one close
of that connection. -/
theorem operations_close_once_and_join_witness :
    exampleClient.Session (exampleEnv 30) [] =
      .ret (⟨some 7⟩, none)
        [.lookupSRV "imaps" "tcp" "example.com", .dialTLS "imap.example.com:993",
          .login 7 "alice@example.com" "secret"] ∧
    ClosesOnceAndJoins (exampleEnv 30) ⟨some 7⟩
      [.lookupSRV "imaps" "tcp" "example.com", .dialTLS "imap.example.com:993",
        .login 7 "alice@example.com" "secret"]
      (accountBody (exampleEnv 30) ⟨some 7⟩) (exampleClient.Account (exampleEnv 30) []) ∧
    teardown (exampleClient.Account (exampleEnv 30) []).log = [.logout 7, .close 7] :=
  ⟨rfl, (operations_close_once_and_join (exampleEnv 30) exampleClient [] _ ⟨some 7⟩ rfl).1,
    by decide⟩

/-! ### Account: INBOX first -/

theorem filter_ne_inbox (names : List String) :
    ("INBOX" :: names.filter (fun n => n ≠ "INBOX")).head? = some "INBOX" ∧
    "INBOX" ∉ names.filter (fun n => n ≠ "INBOX") := by
  simp

/-- C4: when the session is open and the server lists the names `mailboxes`,
`Account` returns the mailbox INBOX followed by the server's names other than
INBOX in their original order (and its error is the one of the close alone);
conversely every `Account` that returns without error returns such a list,
for the names the server listed. The first name is INBOX and no later name is.
In the example world the server lists Archive, INBOX, Sent, INBOX, Trash and
`Account` returns INBOX, Archive, Sent, Trash. -/
theorem Account_INBOX_first :
    (∀ (env : Env) (c : client) (log log1 : List Event) (conn : Conn)
        (mailboxes : List ListData),
      c.Session env log = .ret (⟨some conn⟩, none) log1 →
      env.list log1 conn "" "%" = .ok mailboxes →
      c.Account env log =
        .ret (⟨⟨"INBOX", [], []⟩ ::
            ((mailboxes.map fun m => m.Mailbox).filter (fun n => n ≠ "INBOX")).map
              (fun n => (⟨n, [], []⟩ : Mailbox))⟩,
          errorsJoin [none, env.logout (log1 ++ [.list conn "" "%"]) conn])
          (log1 ++ [.list conn "" "%"] ++ [.logout conn, .close conn])) ∧
    (∀ (env : Env) (c : client) (log log2 : List Event) (acc : Account),
      c.Account env log = .ret (acc, none) log2 →
      ∃ conn log1 mailboxes,
        c.Session env log = .ret (⟨some conn⟩, none) log1 ∧
        env.list log1 conn "" "%" = .ok mailboxes ∧
        (acc.Mailboxes.map fun m => m.Name) =
          "INBOX" :: (mailboxes.map fun m => m.Mailbox).filter (fun n => n ≠ "INBOX")) ∧
    (∀ names : List String,
      ("INBOX" :: names.filter (fun n => n ≠ "INBOX")).head? = some "INBOX" ∧
      "INBOX" ∉ names.filter (fun n => n ≠ "INBOX")) ∧
    exampleClient.Account (exampleEnv 30) [] =
      .ret (⟨[⟨"INBOX", [], []⟩, ⟨"Archive", [], []⟩, ⟨"Sent", [], []⟩, ⟨"Trash", [], []⟩]⟩,
          none)
        [.lookupSRV "imaps" "tcp" "example.com", .dialTLS "imap.example.com:993",
          .login 7 "alice@example.com" "secret", .list 7 "" "%", .logout 7, .close 7] := by
  refine ⟨?_, ?_, filter_ne_inbox, rfl⟩
  · intro env c log log1 conn mailboxes hs hl
    rw [Account_of_session env c log log1 _ hs]
    simp [deferClose, accountBody, hl, imapSession.Close, appendOthers_eq]
  · intro env c log log2 acc h
    unfold client.Account at h
    split at h
    · cases h
    · cases h
    · next session l hs =>
      obtain ⟨conn, hc⟩ := Session_ok_client env c log l session hs
      obtain ⟨cl⟩ := session
      simp only at hc
      subst hc
      refine ⟨conn, l, ?_⟩
      simp only [deferClose, accountBody, imapSession.Close] at h
      cases hl : env.list l conn "" "%" with
      | error e =>
        rw [hl] at h
        simp [errorsJoin] at h
      | ok mailboxes =>
        rw [hl] at h
        simp only [Outcome.ret.injEq, Prod.mk.injEq] at h
        refine ⟨mailboxes, hs, rfl, ?_⟩
        rw [← h.1.1, appendOthers_eq]
        simp [Function.comp_def]

end imap

end TinyMail

namespace TinyMail

/-! ### sort.Slice -/

theorem sortSlice_perm {α : Type} (less : α → α → Bool) (l : List α) :
    (sortSlice less l).Perm l :=
  List.perm_insertionSort _ l

theorem sortSlice_sorted_desc {α : Type} (key : α → Nat) (l : List α) :
    ((sortSlice (fun a b => decide (key a > key b)) l).map key).Sorted (· ≥ ·) := by
  haveI : IsTotal α (fun a b => decide (key b > key a) = false) :=
    ⟨fun a b => by simp only [decide_eq_false_iff_not, not_lt, gt_iff_lt]; omega⟩
  haveI : IsTrans α (fun a b => decide (key b > key a) = false) :=
    ⟨fun a b c => by simp only [decide_eq_false_iff_not, not_lt, gt_iff_lt]; omega⟩
  have h := List.sorted_insertionSort (fun a b => decide (key b > key a) = false) l
  unfold sortSlice
  rw [List.Sorted, List.pairwise_map]
  refine List.Pairwise.imp ?_ h
  intro a b hab
  simpa using hab

theorem sortSlice_nat_sorted (l : List Nat) :
    (sortSlice (fun a b => decide (a > b)) l).Sorted (· ≥ ·) := by
  have := sortSlice_sorted_desc (fun n : Nat => n) l
  simpa using this

namespace imap

/-! ### The keys of the map -/

theorem mem_insertUID (uidSet : List Nat) (uid u : Nat) :
    u ∈ insertUID uidSet uid ↔ u ∈ uidSet ∨ u = uid := by
  unfold insertUID
  split
  · next h =>
    constructor
    · exact Or.inl
    · rintro (h1 | h1)
      · exact h1
      · exact h1 ▸ h
  · simp

theorem nodup_insertUID (uidSet : List Nat) (uid : Nat) (h : uidSet.Nodup) :
    (insertUID uidSet uid).Nodup := by
  unfold insertUID
  split
  · exact h
  · next hn =>
    rw [List.nodup_append]
    refine ⟨h, List.nodup_singleton _, ?_⟩
    intro a ha hb
    simp only [List.mem_singleton] at hb
    exact hn (hb ▸ ha)

theorem mem_foldl_insertUID : ∀ (batch uidSet : List Nat) (u : Nat),
    u ∈ batch.foldl insertUID uidSet ↔ u ∈ uidSet ∨ u ∈ batch
  | [], uidSet, u => by simp
  | b :: batch, uidSet, u => by
    simp only [List.foldl_cons, mem_foldl_insertUID batch, mem_insertUID, List.mem_cons]
    tauto

theorem nodup_foldl_insertUID : ∀ (batch uidSet : List Nat), uidSet.Nodup →
    (batch.foldl insertUID uidSet).Nodup
  | [], _, h => h
  | b :: batch, uidSet, h => by
    simp only [List.foldl_cons]
    exact nodup_foldl_insertUID batch _ (nodup_insertUID uidSet b h)

/-! ### One batch -/

theorem fetchUIDs_batch (env : Env) (session : imapSession) (conn : Conn) (box : List Nat)
    (hc : session.Client = some conn) (hans : AnswersSeqFetch env conn box)
    (start stop : Nat) (log l : List Event) (batch : List Nat)
    (hstop : stop ≤ box.length) (h32 : stop < 2 ^ 32)
    (hf : session.fetchUIDs env start stop log = .ret (batch, none) l) :
    start ≤ stop ∧ ∀ u, u ∈ batch ↔ ∃ n, start < n ∧ n ≤ stop ∧ u = uidAt box n := by
  unfold imapSession.fetchUIDs at hf
  split at hf
  · cases hf
  · next hle =>
    have hle : start ≤ stop := by omega
    refine ⟨hle, ?_⟩
    dsimp only at hf
    have hnums : (List.range (stop - start)).map (fun i => uint32 (start + i + 1)) =
        (List.range (stop - start)).map (fun i => start + i + 1) := by
      apply List.map_congr_left
      intro i hi
      have := List.mem_range.1 hi
      simp only [uint32]
      exact Nat.mod_eq_of_lt (by omega)
    rw [hnums] at hf
    obtain ⟨msgs, hm, hp⟩ := hans log ((List.range (stop - start)).map (fun i => start + i + 1))
      (by
        intro n hn
        simp only [List.mem_map, List.mem_range] at hn
        obtain ⟨i, hi, rfl⟩ := hn
        omega)
    simp only [imapSession.fetch, hc, hm] at hf
    simp only [Outcome.ret.injEq, Prod.mk.injEq, and_true] at hf
    intro u
    rw [← hf.1, hp.mem_iff]
    simp only [List.mem_map, List.mem_range]
    constructor
    · rintro ⟨n, ⟨i, hi, rfl⟩, rfl⟩
      exact ⟨start + i + 1, by omega, by omega, rfl⟩
    · rintro ⟨n, h1, h2, rfl⟩
      exact ⟨n, ⟨n - start - 1, by omega, by omega⟩, rfl⟩

/-! ### The loop collects the UIDs of all positions -/

theorem uidLoop_collects (env : Env) (session : imapSession) (conn : Conn) (box : List Nat)
    (hc : session.Client = some conn) (hans : AnswersSeqFetch env conn box)
    (h32 : box.length < 2 ^ 32) :
    ∀ (start : Nat) (uidSet : List Nat) (log : List Event) (keys : List Nat) (l : List Event),
      uidLoop env session box.length start uidSet log = .ret (keys, none) l →
      (∀ u, u ∈ keys ↔ u ∈ uidSet ∨ ∃ n, start < n ∧ n ≤ box.length ∧ u = uidAt box n) ∧
      (uidSet.Nodup → keys.Nodup) := by
  intro start uidSet log
  induction start, uidSet, log using uidLoop.induct env session box.length with
  | case1 start uidSet log hlt stop l1 hf =>
    intro keys l h
    rw [uidLoop_panic env session _ start uidSet log l1 hlt hf] at h
    cases h
  | case2 start uidSet log hlt stop b e l1 hf =>
    intro keys l h
    rw [uidLoop_error env session _ start uidSet log l1 b e hlt hf] at h
    cases h
  | case3 start uidSet log hlt stop b l1 hf ih =>
    intro keys l h
    rw [uidLoop_step env session _ start uidSet log l1 b hlt hf] at h
    obtain ⟨ih1, ih2⟩ := ih keys l h
    have hstop : stop ≤ box.length ∧ stop ≤ uint32 (start + messageLimit) := by
      simp only [stop]
      split <;> omega
    obtain ⟨hle, hb⟩ := fetchUIDs_batch env session conn box hc hans start stop log l1 b
      hstop.1 (by omega) hf
    have hno : uint32 (start + messageLimit) = start + messageLimit := by
      have h2 := hstop.2
      simp only [uint32, messageLimit] at h2 ⊢
      omega
    have hstop1 : start + messageLimit > box.length → stop = box.length := by
      intro hgt
      simp only [stop, hno, hgt]
      simp
    have hstop2 : ¬ start + messageLimit > box.length → stop = start + messageLimit := by
      intro hgt
      simp only [stop, hno, hgt]
      simp
    refine ⟨?_, fun hnd => ih2 (nodup_foldl_insertUID b uidSet hnd)⟩
    intro u
    rw [ih1, mem_foldl_insertUID, hb, hno]
    constructor
    · rintro ((h1 | ⟨n, h1, h2, rfl⟩) | ⟨n, h1, h2, rfl⟩)
      · exact Or.inl h1
      · exact Or.inr ⟨n, h1, by omega, rfl⟩
      · exact Or.inr ⟨n, by omega, h2, rfl⟩
    · rintro (h1 | ⟨n, h1, h2, rfl⟩)
      · exact Or.inl (Or.inl h1)
      · by_cases hn : n ≤ stop
        · exact Or.inl (Or.inr ⟨n, h1, hn, rfl⟩)
        · refine Or.inr ⟨n, ?_, h2, rfl⟩
          by_cases hgt : start + messageLimit > box.length
          · rw [hstop1 hgt] at hn
            omega
          · rw [hstop2 hgt] at hn
            omega
  | case4 start uidSet log hlt =>
    intro keys l h
    rw [uidLoop_done env session _ start uidSet log hlt] at h
    cases h
    refine ⟨fun u => ?_, id⟩
    constructor
    · exact Or.inl
    · rintro (h1 | ⟨n, h1, h2, rfl⟩)
      · exact h1
      · omega

theorem mem_box_iff (box : List Nat) (u : Nat) :
    u ∈ box ↔ ∃ n, 0 < n ∧ n ≤ box.length ∧ u = uidAt box n := by
  constructor
  · intro h
    obtain ⟨i, hi, rfl⟩ := List.getElem_of_mem h
    refine ⟨i + 1, by omega, by omega, ?_⟩
    simp only [uidAt, Nat.add_sub_cancel]
    rw [List.getD_eq_getElem _ _ hi]
  · rintro ⟨n, h1, h2, rfl⟩
    have hi : n - 1 < box.length := by omega
    simp only [uidAt]
    rw [List.getD_eq_getElem _ _ hi]
    exact List.getElem_mem _

theorem uidLoop_perm (env : Env) (session : imapSession) (conn : Conn) (box : List Nat)
    (hc : session.Client = some conn) (hans : AnswersSeqFetch env conn box)
    (h32 : box.length < 2 ^ 32) (hnd : box.Nodup) (log l : List Event) (keys : List Nat)
    (h : uidLoop env session box.length 0 [] log = .ret (keys, none) l) :
    keys.Perm box := by
  obtain ⟨h1, h2⟩ := uidLoop_collects env session conn box hc hans h32 0 [] log keys l h
  rw [List.perm_ext_iff_of_nodup (h2 List.nodup_nil) hnd]
  intro u
  rw [h1, mem_box_iff box]
  simp

/-! ### A successful Mailbox -/

theorem errorsJoin_eq_none (a b : Option Error) (h : errorsJoin [a, b] = none) :
    a = none ∧ b = none :=
  (errorsJoin_pair a b).1.1 h

theorem page_eq_take (uids : List Nat) :
    (if uids.length > pageSize then uids.take pageSize else uids) = uids.take pageSize := by
  split
  · rfl
  · exact (List.take_of_length_le (by omega)).symm

theorem Mailbox_success (env : Env) (c : client) (name : String) (log log1 log2 : List Event)
    (conn : Conn) (n : Nat) (mbx : Mailbox)
    (hs : c.Session env log = .ret (⟨some conn⟩, none) log1)
    (hsel : env.select log1 conn name = .ok ⟨n⟩) (hpos : 0 < n)
    (hok : c.Mailbox env name log = .ret (mbx, none) log2) :
    ∃ keys l l2,
      uidLoop env ⟨some conn⟩ n 0 [] (log1 ++ [.select conn name]) = .ret (keys, none) l ∧
      imapSession.fetchMessages env ⟨some conn⟩
        ((sortSlice (fun a b => decide (a > b)) keys).take pageSize) l =
          .ret (mbx.Messages, none) l2 ∧
      mbx.UIDs = sortSlice (fun a b => decide (a > b)) keys ∧ mbx.Name = name := by
  rw [Mailbox_of_session env c name log log1 _ hs] at hok
  unfold deferClose at hok
  split at hok
  · next a err l1 hbody =>
    simp only [imapSession.Close] at hok
    simp only [Outcome.ret.injEq, Prod.mk.injEq] at hok
    obtain ⟨⟨rfl, hj⟩, -⟩ := hok
    obtain ⟨rfl, -⟩ := errorsJoin_eq_none _ _ hj
    unfold mailboxBody at hbody
    simp only [hsel] at hbody
    have hn : n ≠ 0 := by omega
    simp only [hn, if_false] at hbody
    split at hbody
    · cases hbody
    · cases hbody
    · next keys l hloop =>
      simp only [page_eq_take] at hbody
      split at hbody
      · cases hbody
      · next messages err l2 hm =>
        simp only [Outcome.ret.injEq, Prod.mk.injEq] at hbody
        obtain ⟨⟨rfl, rfl⟩, rfl⟩ := hbody
        exact ⟨keys, l, _, hloop, hm, rfl, rfl⟩
  · cases hok

theorem sorted_gt_of_perm_nodup (keys box : List Nat) (hp : keys.Perm box) (hnd : box.Nodup) :
    (sortSlice (fun a b => decide (a > b)) keys).Sorted (· > ·) := by
  have hs := sortSlice_nat_sorted keys
  have hn : (sortSlice (fun a b => decide (a > b)) keys).Nodup :=
    ((sortSlice_perm _ keys).trans hp).nodup_iff.2 hnd
  exact hs.gt_of_ge hn

/-- C2: when selection reports `N > 0` messages (a `uint32`) and the server
answers every sequence-number fetch with exactly the UIDs of the requested
positions of a mailbox `box` of `N` pairwise distinct UIDs, a `Mailbox` that
returns without error returns a `UIDs` sequence with exactly `N` entries, which
holds exactly the UIDs of the mailbox and is sorted strictly descending. -/
theorem Mailbox_UIDs_complete_descending (env : Env) (c : client) (name : String)
    (log log1 log2 : List Event) (conn : Conn) (box : List Nat) (mbx : Mailbox)
    (hs : c.Session env log = .ret (⟨some conn⟩, none) log1)
    (hsel : env.select log1 conn name = .ok ⟨box.length⟩)
    (hpos : 0 < box.length) (h32 : box.length < 2 ^ 32) (hnd : box.Nodup)
    (hans : AnswersSeqFetch env conn box)
    (hok : c.Mailbox env name log = .ret (mbx, none) log2) :
    mbx.UIDs.length = box.length ∧ mbx.UIDs.Perm box ∧ mbx.UIDs.Sorted (· > ·) := by
  obtain ⟨keys, l, l2, hloop, -, hu, -⟩ :=
    Mailbox_success env c name log log1 log2 conn box.length mbx hs hsel hpos hok
  have hp := uidLoop_perm env ⟨some conn⟩ conn box rfl hans h32 hnd _ l keys hloop
  have hperm : mbx.UIDs.Perm box := hu ▸ (sortSlice_perm _ keys).trans hp
  exact ⟨hperm.length_eq, hperm, hu ▸ sorted_gt_of_perm_nodup keys box hp hnd⟩

/-! ### The first page -/

theorem toMessages_uids : ∀ (msgs : List FetchMessageBuffer) (acc out : List Message),
    toMessages msgs acc = some out →
    (out.map fun m => m.UID) = (acc.map fun m => m.UID) ++ (msgs.map fun m => m.UID)
  | [], acc, out, h => by
    simp only [toMessages, Option.some.injEq] at h
    simp [h]
  | msg :: rest, acc, out, h => by
    simp only [toMessages] at h
    split at h
    · cases h
    · have := toMessages_uids rest _ out h
      simp [this]

theorem fetchMessages_uids (env : Env) (conn : Conn) (hmeta : AnswersMetadataFetch env conn)
    (uids : List Nat) (log l : List Event) (messages : List Message)
    (h : imapSession.fetchMessages env ⟨some conn⟩ uids log = .ret (messages, none) l) :
    (messages.map fun m => m.UID).Perm uids ∧
    (messages.map fun m => m.UID).Sorted (· ≥ ·) := by
  obtain ⟨msgs, hm, hp⟩ := hmeta log uids
  simp only [imapSession.fetchMessages, imapSession.fetch, hm] at h
  split at h
  · cases h
  · next out hout =>
    simp only [Outcome.ret.injEq, Prod.mk.injEq, and_true] at h
    obtain ⟨rfl, -⟩ := h
    have hu := toMessages_uids msgs [] out hout
    simp only [List.map_nil, List.nil_append] at hu
    refine ⟨?_, sortSlice_sorted_desc (fun m : Message => m.UID) out⟩
    exact ((sortSlice_perm _ out).map _).trans (hu ▸ hp)

/-- C3: under the hypotheses of C2, when moreover the metadata fetch answers
with one record for each requested UID, in any order, the `Messages` of a
`Mailbox` that returns without error are the metadata of the first 25 entries
of `UIDs` in the same order: there are `min N 25` of them and the `i`-th has
the UID `UIDs[i]`. -/
theorem Mailbox_Messages_first_page (env : Env) (c : client) (name : String)
    (log log1 log2 : List Event) (conn : Conn) (box : List Nat) (mbx : Mailbox)
    (hs : c.Session env log = .ret (⟨some conn⟩, none) log1)
    (hsel : env.select log1 conn name = .ok ⟨box.length⟩)
    (hpos : 0 < box.length) (h32 : box.length < 2 ^ 32) (hnd : box.Nodup)
    (hans : AnswersSeqFetch env conn box) (hmeta : AnswersMetadataFetch env conn)
    (hok : c.Mailbox env name log = .ret (mbx, none) log2) :
    mbx.Messages.length = min box.length 25 ∧
    (mbx.Messages.map fun m => m.UID) = mbx.UIDs.take 25 ∧
    (∀ i, i < min box.length 25 →
      ∃ m u, mbx.Messages[i]? = some m ∧ mbx.UIDs[i]? = some u ∧ m.UID = u) := by
  obtain ⟨keys, l, l2, hloop, hm, hu, -⟩ :=
    Mailbox_success env c name log log1 log2 conn box.length mbx hs hsel hpos hok
  have hp := uidLoop_perm env ⟨some conn⟩ conn box rfl hans h32 hnd _ l keys hloop
  have hlen : mbx.UIDs.length = box.length := (hu ▸ (sortSlice_perm _ keys).trans hp).length_eq
  have hsorted : mbx.UIDs.Sorted (· ≥ ·) := hu ▸ sortSlice_nat_sorted keys
  obtain ⟨hperm, hms⟩ := fetchMessages_uids env conn hmeta _ l l2 mbx.Messages hm
  rw [← hu] at hperm
  have hpage : (mbx.UIDs.take pageSize).Sorted (· ≥ ·) :=
    List.Pairwise.sublist (List.take_sublist _ _) hsorted
  have heq : (mbx.Messages.map fun m => m.UID) = mbx.UIDs.take 25 :=
    List.eq_of_perm_of_sorted hperm hms hpage
  have hl : mbx.Messages.length = min box.length 25 := by
    have := congrArg List.length heq
    simp only [List.length_map, List.length_take, hlen] at this
    omega
  refine ⟨hl, heq, ?_⟩
  intro i hi
  have hi1 : i < mbx.Messages.length := by omega
  have hi2 : i < mbx.UIDs.length := by omega
  refine ⟨mbx.Messages[i], mbx.UIDs[i], List.getElem?_eq_getElem hi1,
    List.getElem?_eq_getElem hi2, ?_⟩
  have h1 : (mbx.Messages.map fun m => m.UID)[i]? = (mbx.UIDs.take 25)[i]? := by rw [heq]
  rw [List.getElem?_map, List.getElem?_take_of_lt (by omega), List.getElem?_eq_getElem hi1,
    List.getElem?_eq_getElem hi2] at h1
  simpa using h1

end imap

end TinyMail

namespace TinyMail

namespace imap

/-! ### The batches of the loop below the wrap-around -/

theorem seqFetches_append (l₁ l₂ : List Event) :
    seqFetches (l₁ ++ l₂) = seqFetches l₁ ++ seqFetches l₂ := by
  simp [seqFetches, List.filterMap_append]

theorem range_map_uint32 (start count : Nat) (h : start + count < 2 ^ 32) :
    (List.range count).map (fun i => uint32 (start + i + 1)) = List.range' (start + 1) count := by
  apply List.ext_getElem
  · simp
  · intro i h1 h2
    simp only [List.length_map, List.length_range] at h1
    simp only [List.getElem_map, List.getElem_range, List.getElem_range', uint32]
    rw [Nat.mod_eq_of_lt (by omega)]
    omega

theorem fetchUIDs_succeeds (env : Env) (session : imapSession) (conn : Conn)
    (hc : session.Client = some conn)
    (hsucc : ∀ h nums, ∃ msgs, env.fetch h conn (.seq nums) uidOptions = .ok msgs)
    (start stop : Nat) (log : List Event) (hle : start ≤ stop) (h32 : stop < 2 ^ 32) :
    ∃ batch, session.fetchUIDs env start stop log =
      .ret (batch, none)
        (log ++ [.fetch conn (.seq (batchNumbers (start, stop))) uidOptions]) := by
  have hn : ¬ start > stop := by omega
  obtain ⟨msgs, hm⟩ := hsucc log (batchNumbers (start, stop))
  refine ⟨msgs.map fun m => m.UID, ?_⟩
  have hr := range_map_uint32 start (stop - start) (by omega)
  simp only [batchNumbers] at hm ⊢
  simp only [imapSession.fetchUIDs, hn, if_false, hr, imapSession.fetch, hc, hm]

theorem uidLoop_batches_from (env : Env) (session : imapSession) (conn : Conn)
    (hc : session.Client = some conn)
    (hsucc : ∀ h nums, ∃ msgs, env.fetch h conn (.seq nums) uidOptions = .ok msgs)
    (n : Nat) (hn : n ≤ 4294967000) :
    ∀ (j k : Nat), k + j = (n + 499) / 500 → ∀ (uidSet : List Nat) (log : List Event),
      ∃ keys l, uidLoop env session n (500 * k) uidSet log = .ret (keys, none) l ∧
        seqFetches l = seqFetches log ++
          (List.range' k j).map fun i => batchNumbers (500 * i, min (500 * (i + 1)) n)
  | 0, k, hk, uidSet, log => by
    refine ⟨uidSet, log, uidLoop_done _ _ _ _ _ _ (by omega), by simp⟩
  | j + 1, k, hk, uidSet, log => by
    have hlt : 500 * k < n := by omega
    have hnext : uint32 (500 * k + messageLimit) = 500 * (k + 1) := by
      simp only [uint32, messageLimit]
      omega
    have hstop : (if uint32 (500 * k + messageLimit) > n then n
        else uint32 (500 * k + messageLimit)) = min (500 * (k + 1)) n := by
      rw [hnext]
      split <;> omega
    obtain ⟨batch, hf⟩ := fetchUIDs_succeeds env session conn hc hsucc (500 * k)
      (min (500 * (k + 1)) n) log (by omega) (by omega)
    rw [← hstop] at hf
    rw [uidLoop_step _ _ _ _ uidSet log _ _ hlt hf, hnext]
    obtain ⟨keys, l, h1, h2⟩ := uidLoop_batches_from env session conn hc hsucc n hn j (k + 1)
      (by omega) (batch.foldl insertUID uidSet) _
    refine ⟨keys, l, h1, ?_⟩
    have hmin : (if 500 * (k + 1) > n then n else 500 * (k + 1)) = min (500 * (k + 1)) n := by
      split <;> omega
    rw [h2, seqFetches_append, hmin]
    simp [seqFetches, List.range'_succ]

theorem batchBounds_le (n : Nat) :
    ∀ b ∈ batchBounds n, b.1 ≤ b.2 ∧ b.2 - b.1 ≤ messageLimit ∧ b.2 ≤ n := by
  intro b hb
  simp only [batchBounds, List.mem_map, List.mem_range] at hb
  obtain ⟨k, hk, rfl⟩ := hb
  simp only [messageLimit]
  omega

theorem batchNumbers_cover (n : Nat) : ∀ (j k : Nat), k + j = (n + 499) / 500 →
    ((List.range' k j).map fun i => batchNumbers (500 * i, min (500 * (i + 1)) n)).flatten =
      List.range' (500 * k + 1) (n - 500 * k) := by
  intro j
  induction j with
  | zero =>
    intro k hk
    have h0 : n - 500 * k = 0 := by omega
    rw [h0, List.range'_zero, List.range'_zero, List.map_nil, List.flatten_nil]
  | succ j ih =>
    intro k hk
    have ih := ih (k + 1) (by omega)
    rw [List.range'_succ, List.map_cons, List.flatten_cons, ih]
    simp only [batchNumbers]
    by_cases hle : 500 * (k + 1) ≤ n
    · have h1 : min (500 * (k + 1)) n - 500 * k = 500 := by omega
      have h2 : 500 * (k + 1) + 1 = 500 * k + 1 + 500 := by omega
      have h3 : n - 500 * k = (n - 500 * (k + 1)) + 500 := by omega
      rw [h1, h2, h3, List.range'_append_1]
    · have h1 : min (500 * (k + 1)) n - 500 * k = n - 500 * k := by omega
      have h2 : n - 500 * (k + 1) = 0 := by omega
      rw [h1, h2, List.range'_zero, List.append_nil]

/-- For a message count of at most 4294967000 and a server that answers every
sequence-number fetch, the UID-enumeration loop terminates without error; its
fetches are, in order, the batches `(start, end)` of `batchBounds`, each asking
for the numbers `start + 1, ..., end` with `start ≤ end ≤ start + 500`; and the
batches together are the sequence numbers `1, ..., n`, each exactly once. -/
theorem uidLoop_batches_below_wrap (env : Env) (session : imapSession) (conn : Conn)
    (hc : session.Client = some conn)
    (hsucc : ∀ h nums, ∃ msgs, env.fetch h conn (.seq nums) uidOptions = .ok msgs)
    (n : Nat) (hn : n ≤ 4294967000) (log : List Event) :
    (∃ keys l, uidLoop env session n 0 [] log = .ret (keys, none) l ∧
      seqFetches l = seqFetches log ++ (batchBounds n).map batchNumbers) ∧
    (∀ b ∈ batchBounds n, b.1 ≤ b.2 ∧ b.2 - b.1 ≤ messageLimit ∧ b.2 ≤ n) ∧
    ((batchBounds n).map batchNumbers).flatten = List.range' 1 n := by
  have hb : (batchBounds n).map batchNumbers =
      (List.range' 0 ((n + 499) / 500)).map
        fun i => batchNumbers (500 * i, min (500 * (i + 1)) n) := by
    simp [batchBounds, List.range_eq_range', Function.comp_def]
  refine ⟨?_, batchBounds_le n, ?_⟩
  · obtain ⟨keys, l, h1, h2⟩ := uidLoop_batches_from env session conn hc hsucc n hn
      ((n + 499) / 500) 0 (by omega) [] log
    exact ⟨keys, l, h1, by rw [h2, hb]⟩
  · rw [hb, batchNumbers_cover n ((n + 499) / 500) 0 (by omega)]
    rfl

/-- The order in which the keys of the map are visited does not matter: two
enumerations of the same distinct keys are sorted to the same sequence. -/
theorem sortSlice_keys_order (keys₁ keys₂ : List Nat) (hp : keys₁.Perm keys₂) :
    sortSlice (fun a b => decide (a > b)) keys₁ =
      sortSlice (fun a b => decide (a > b)) keys₂ :=
  List.eq_of_perm_of_sorted
    ((sortSlice_perm _ keys₁).trans (hp.trans (sortSlice_perm _ keys₂).symm))
    (sortSlice_nat_sorted keys₁) (sortSlice_nat_sorted keys₂)

end imap

end TinyMail

namespace TinyMail

namespace imap

/-! ### The example world -/

theorem uidAt_range (n k : Nat) (h1 : 1 ≤ k) (h2 : k ≤ n) : uidAt (List.range' 1 n) k = k := by
  have hi : k - 1 < (List.range' 1 n).length := by simp; omega
  simp only [uidAt]
  rw [List.getD_eq_getElem _ _ hi, List.getElem_range']
  omega

theorem example_answers_seq (n : Nat) : AnswersSeqFetch (exampleEnv n) 7 (List.range' 1 n) := by
  intro h nums hn
  refine ⟨_, rfl, ?_⟩
  rw [List.map_map]
  have h1 : nums.map (uidAt (List.range' 1 n)) = nums := by
    conv_rhs => rw [← List.map_id nums]
    apply List.map_congr_left
    intro k hk
    have := hn k hk
    simp only [List.length_range'] at this
    exact uidAt_range n k this.1 this.2
  rw [h1]
  simp [Function.comp_def]

theorem example_answers_metadata (n : Nat) : AnswersMetadataFetch (exampleEnv n) 7 := by
  intro h uids
  refine ⟨_, rfl, ?_⟩
  rw [List.map_map]
  simpa [Function.comp_def] using List.perm_insertionSort (fun a b : Nat => a ≤ b) uids

theorem example_fetchUIDs (n start stop : Nat) (log : List Event) (h : start ≤ stop) :
    imapSession.fetchUIDs (exampleEnv n) ⟨some 7⟩ start stop log =
      .ret ((List.range (stop - start)).map (fun i => uint32 (start + i + 1)), none)
        (log ++ [.fetch 7 (.seq ((List.range (stop - start)).map
          (fun i => uint32 (start + i + 1)))) uidOptions]) := by
  have hn : ¬ start > stop := by omega
  simp [imapSession.fetchUIDs, hn, imapSession.fetch, exampleEnv, List.map_map,
    Function.comp_def]

theorem example_Session (n : Nat) :
    exampleClient.Session (exampleEnv n) [] =
      .ret (⟨some 7⟩, none)
        [.lookupSRV "imaps" "tcp" "example.com", .dialTLS "imap.example.com:993",
          .login 7 "alice@example.com" "secret"] := rfl

theorem example_uidLoop (log : List Event) :
    uidLoop (exampleEnv 30) ⟨some 7⟩ 30 0 [] log =
      .ret (List.range' 1 30, none) (log ++ [.fetch 7 (.seq (List.range' 1 30)) uidOptions]) := by
  rw [uidLoop_step (exampleEnv 30) ⟨some 7⟩ 30 0 [] log _ _ (by decide)
    (example_fetchUIDs 30 0 _ log (by decide))]
  rw [uidLoop_done _ _ _ _ _ _ (by decide)]
  rfl

theorem example_Mailbox :
    exampleClient.Mailbox (exampleEnv 30) "INBOX" [] = .ret (exampleMailbox, none) exampleHistory := by
  rw [Mailbox_of_session _ _ _ _ _ _ (example_Session 30)]
  simp only [deferClose, mailboxBody]
  have hsel : ∀ l, (exampleEnv 30).select l 7 "INBOX" = .ok ⟨30⟩ := fun _ => rfl
  simp only [hsel, example_uidLoop]
  rfl

/-- Witness of C2: in the example world the mailbox INBOX has 30 messages with
the UIDs 1..30, and `Mailbox` returns the UIDs 30, 29, ..., 1. -/
theorem Mailbox_UIDs_complete_descending_witness :
    exampleClient.Mailbox (exampleEnv 30) "INBOX" [] =
      .ret (exampleMailbox, none) exampleHistory ∧
    exampleMailbox.UIDs =
      [30, 29, 28, 27, 26, 25, 24, 23, 22, 21, 20, 19, 18, 17, 16, 15, 14, 13, 12, 11, 10, 9,
        8, 7, 6, 5, 4, 3, 2, 1] ∧
    exampleMailbox.UIDs.length = (List.range' 1 30).length ∧
    exampleMailbox.UIDs.Perm (List.range' 1 30) ∧
    exampleMailbox.UIDs.Sorted (· > ·) :=
  ⟨example_Mailbox, by decide,
    Mailbox_UIDs_complete_descending (exampleEnv 30) exampleClient "INBOX" [] _ exampleHistory 7
      (List.range' 1 30) exampleMailbox (example_Session 30) rfl (by decide) (by decide)
      (by decide) (example_answers_seq 30) example_Mailbox⟩

/-- Witness of C3: in the example world the metadata fetch answers in ascending
order, and `Mailbox` returns the 25 summaries of the UIDs 30, 29, ..., 6. -/
theorem Mailbox_Messages_first_page_witness :
    (exampleMailbox.Messages.map fun m => m.UID) =
      [30, 29, 28, 27, 26, 25, 24, 23, 22, 21, 20, 19, 18, 17, 16, 15, 14, 13, 12, 11, 10, 9,
        8, 7, 6] ∧
    (exampleMailbox.Messages.length = min (List.range' 1 30).length 25 ∧
      (exampleMailbox.Messages.map fun m => m.UID) = exampleMailbox.UIDs.take 25 ∧
      (∀ i, i < min (List.range' 1 30).length 25 →
        ∃ m u, exampleMailbox.Messages[i]? = some m ∧ exampleMailbox.UIDs[i]? = some u ∧
          m.UID = u)) :=
  ⟨by decide,
    Mailbox_Messages_first_page (exampleEnv 30) exampleClient "INBOX" [] _ exampleHistory 7
      (List.range' 1 30) exampleMailbox (example_Session 30) rfl (by decide) (by decide)
      (by decide) (example_answers_seq 30) (example_answers_metadata 30) example_Mailbox⟩

/-! ### The loop near the top of the `uint32` range -/

theorem fetchUIDs_start_gt (env : Env) (s : imapSession) (start stop : Nat) (log : List Event)
    (h : start > stop) :
    s.fetchUIDs env start stop log = .ret ([], some (.startLargerThanEnd start stop)) log := by
  simp [imapSession.fetchUIDs, h]

theorem big_uidLoop : ∀ (k : Nat), k ≤ 8589934 → ∀ (uidSet : List Nat) (log : List Event),
    ∃ keys l, uidLoop (exampleEnv 4294967295) ⟨some 7⟩ 4294967295 (500 * (8589934 - k)) uidSet
      log = .ret (keys, some (.startLargerThanEnd 4294967000 204)) l
  | 0, _, uidSet, log => by
    refine ⟨uidSet, log, ?_⟩
    exact uidLoop_error _ _ _ _ _ _ _ [] _ (by decide)
      (fetchUIDs_start_gt _ _ 4294967000 _ log (by decide))
  | k + 1, hk, uidSet, log => by
    have hlt : 500 * (8589934 - (k + 1)) < 4294967295 := by omega
    have hnext : uint32 (500 * (8589934 - (k + 1)) + messageLimit) = 500 * (8589934 - k) := by
      simp only [uint32, messageLimit]
      omega
    have hstop : (if uint32 (500 * (8589934 - (k + 1)) + messageLimit) > 4294967295 then
        4294967295 else uint32 (500 * (8589934 - (k + 1)) + messageLimit)) =
        500 * (8589934 - k) := by
      rw [hnext]
      have : ¬ 500 * (8589934 - k) > 4294967295 := by omega
      simp only [this, if_false]
    have hf := example_fetchUIDs 4294967295 (500 * (8589934 - (k + 1))) (500 * (8589934 - k))
      log (by omega)
    rw [← hstop] at hf
    rw [uidLoop_step _ _ _ _ uidSet log _ _ hlt hf, hnext]
    exact big_uidLoop k (by omega) _ _

theorem example_Mailbox_loop_error (n : Nat) (hn : n ≠ 0) (keys : List Nat) (l : List Event)
    (e : Error)
    (h : uidLoop (exampleEnv n) ⟨some 7⟩ n 0 []
      ([.lookupSRV "imaps" "tcp" "example.com", .dialTLS "imap.example.com:993",
        .login 7 "alice@example.com" "secret"] ++ [.select 7 "INBOX"]) =
        .ret (keys, some e) l) :
    exampleClient.Mailbox (exampleEnv n) "INBOX" [] =
      .ret (⟨"INBOX", [], []⟩, some (.join [e])) (l ++ [.logout 7, .close 7]) := by
  rw [Mailbox_of_session _ _ _ _ _ _ (example_Session n)]
  have hsel : ∀ l, (exampleEnv n).select l 7 "INBOX" = .ok ⟨n⟩ := fun _ => rfl
  simp only [deferClose, mailboxBody, hsel, hn, if_false, h, imapSession.Close]
  rfl

/-- C10 (evaluation at the failing input): for a mailbox of `2 ^ 32 - 1`
messages on a server that answers every fetch as asked, the loop reaches
`start = 4294967000`, where `start + messageLimit` wraps around to 204; it calls
`fetchUIDs(4294967000, 204)`, with `start > end`, which fails, and `Mailbox`
returns that error without any UID. -/
theorem Mailbox_uid_loop_wraps_around :
    uint32 (4294967000 + messageLimit) = 204 ∧
    AnswersSeqFetch (exampleEnv 4294967295) 7 (List.range' 1 4294967295) ∧
    (∀ (env : Env) (s : imapSession) (log : List Event),
      s.fetchUIDs env 4294967000 204 log =
        .ret ([], some (.startLargerThanEnd 4294967000 204)) log) ∧
    ∃ log2, exampleClient.Mailbox (exampleEnv 4294967295) "INBOX" [] =
      .ret (⟨"INBOX", [], []⟩, some (.join [.startLargerThanEnd 4294967000 204])) log2 := by
  refine ⟨by decide, example_answers_seq _,
    fun env s log => fetchUIDs_start_gt env s _ _ log (by decide), ?_⟩
  obtain ⟨keys, l, h⟩ := big_uidLoop 8589934 (le_refl _) []
    ([.lookupSRV "imaps" "tcp" "example.com", .dialTLS "imap.example.com:993",
      .login 7 "alice@example.com" "secret"] ++ [.select 7 "INBOX"])
  simp only [Nat.sub_self, Nat.mul_zero] at h
  exact ⟨_, example_Mailbox_loop_error 4294967295 (by decide) keys l _ h⟩

end imap

end TinyMail

namespace TinyMail

namespace smtp

theorem runeToChar_toNat (c : Char) : runeToChar (c.toNat : Int) = c := by
  have hv : c.toNat.isValidChar := c.valid
  simp [runeToChar, hv, Char.ofNat_toNat]

theorem sanitize_data (s : String) :
    (sanitize s).data = s.data.filter (fun c => !IsControl c) := by
  simp only [sanitize, stringsMap]
  induction s.data with
  | nil => simp
  | cons c cs ih =>
    by_cases h : IsControl c = true
    · simp [List.filterMap_cons, h, ih]
    · simp [List.filterMap_cons, h, ih, runeToChar_toNat]

/-- C5: `sanitize s` is `s` with exactly its control code points deleted: it
is the subsequence of `s` made of the code points that are not control
characters, every one of them kept as often and in the order it occurs; the
result holds no control character, in particular no CR, LF or NUL; and a
subject with a newline and a NUL byte comes out without a line break. -/
theorem sanitize_deletes_exactly_control :
    (∀ s : String,
      (sanitize s).data = s.data.filter (fun c => !IsControl c) ∧
      (sanitize s).data.Sublist s.data ∧
      (∀ c, IsControl c = false → (sanitize s).data.count c = s.data.count c) ∧
      (∀ c ∈ (sanitize s).data, IsControl c = false) ∧
      '\r' ∉ (sanitize s).data ∧ '\n' ∉ (sanitize s).data ∧ '\x00' ∉ (sanitize s).data) ∧
    sanitize "Re: hello\nBcc: eve@example.org\x00\r\n" = "Re: helloBcc: eve@example.org" := by
  refine ⟨fun s => ?_, by decide⟩
  have hd := sanitize_data s
  have hall : ∀ c ∈ (sanitize s).data, IsControl c = false := by
    intro c hc
    rw [hd] at hc
    simpa using (List.mem_filter.1 hc).2
  refine ⟨hd, ?_, ?_, hall, ?_, ?_, ?_⟩
  · rw [hd]; exact List.filter_sublist _
  · intro c hc
    rw [hd, List.count_filter]
    simp [hc]
  · intro h; exact absurd (hall _ h) (by decide)
  · intro h; exact absurd (hall _ h) (by decide)
  · intro h; exact absurd (hall _ h) (by decide)

end smtp

end TinyMail

namespace TinyMail

namespace smtp

theorem sendLoop_cons (env : Env) (c : client) (sender rcpt subject body : String)
    (srv : SRV) (rest : List SRV) (err : Option Error) (log : List Event) :
    sendLoop env c sender rcpt subject body (srv :: rest) err log =
      match attempt env c sender rcpt subject body srv log with
      | (none, log1) => (none, log1)
      | (some e, log1) => sendLoop env c sender rcpt subject body rest (some e) log1 := by
  by_cases h : trimSuffix srv.Target "." = ""
  · simp [sendLoop, attempt, h]
  · cases hsend : (c.WithServer (trimSuffix srv.Target ".") srv.Port).send env sender rcpt
      subject body log with
    | mk r l => cases r <;> simp [sendLoop, attempt, h, hsend]

theorem sendLoop_allFail (env : Env) (c : client) (sender rcpt subject body : String) :
    ∀ (srvs : List SRV) (err : Option Error) (log : List Event) (hne : srvs ≠ []),
      allFail env c sender rcpt subject body srvs log = true →
      sendLoop env c sender rcpt subject body srvs err log =
        ((attempt env c sender rcpt subject body (srvs.getLast hne)
            (historyAfter env c sender rcpt subject body srvs.dropLast log)).1,
          historyAfter env c sender rcpt subject body srvs log)
  | [], _, _, hne, _ => absurd rfl hne
  | [srv], err, log, _, h => by
    rw [sendLoop_cons]
    simp only [allFail, Bool.and_true] at h
    cases ha : attempt env c sender rcpt subject body srv log with
    | mk r l =>
      cases r with
      | none => simp [ha] at h
      | some e => simp [sendLoop, historyAfter, ha]
  | srv :: srv2 :: rest, err, log, _, h => by
    rw [sendLoop_cons]
    simp only [allFail, Bool.and_eq_true] at h
    cases ha : attempt env c sender rcpt subject body srv log with
    | mk r l =>
      cases r with
      | none => simp [ha] at h
      | some e =>
        have h2 : allFail env c sender rcpt subject body (srv2 :: rest) l = true := by
          simp only [allFail, Bool.and_eq_true, ha]
          simpa [ha] using h.2
        have ih := sendLoop_allFail env c sender rcpt subject body (srv2 :: rest) (some e) l
          (by simp) h2
        simp only [ih]
        simp [historyAfter, ha, List.dropLast]

theorem sendLoop_first_success (env : Env) (c : client) (sender rcpt subject body : String)
    (s : SRV) (post : List SRV) :
    ∀ (pre : List SRV) (err : Option Error) (log : List Event),
      allFail env c sender rcpt subject body pre log = true →
      (attempt env c sender rcpt subject body s
        (historyAfter env c sender rcpt subject body pre log)).1 = none →
      sendLoop env c sender rcpt subject body (pre ++ s :: post) err log =
        (none, (attempt env c sender rcpt subject body s
          (historyAfter env c sender rcpt subject body pre log)).2)
  | [], err, log, _, hs => by
    simp only [List.nil_append, historyAfter] at hs ⊢
    rw [sendLoop_cons]
    cases ha : attempt env c sender rcpt subject body s log with
    | mk r l =>
      rw [ha] at hs
      simp only at hs
      subst hs
      rfl
  | srv :: pre, err, log, h, hs => by
    simp only [List.cons_append]
    rw [sendLoop_cons]
    simp only [allFail, Bool.and_eq_true] at h
    simp only [historyAfter] at hs ⊢
    cases ha : attempt env c sender rcpt subject body srv log with
    | mk r l =>
      cases r with
      | none => simp [ha] at h
      | some e =>
        rw [ha] at hs h
        exact sendLoop_first_success env c sender rcpt subject body s post pre (some e) l h.2 hs

theorem Send_lookup (env : Env) (c : client) (sender rcpt subject body : String)
    (log : List Event) (hHost : c.Host = "") :
    c.Send env sender rcpt subject body log =
      match (env.lookupSRV log "submissions" "tcp" c.Domain).2 with
      | some e => (some e, log ++ [.lookupSRV "submissions" "tcp" c.Domain])
      | none =>
        sendLoop env c sender rcpt subject body
          (env.lookupSRV log "submissions" "tcp" c.Domain).1 none
          (log ++ [.lookupSRV "submissions" "tcp" c.Domain]) := by
  cases hl : (env.lookupSRV log "submissions" "tcp" c.Domain).2 <;>
    simp [client.Send, hHost, hl]

/-- C6: a composer without server override whose discovery answers with a
non-empty candidate list tries the candidates in discovery order. A candidate
with an empty target fails at once, without any call, and the loop goes on.
When a candidate succeeds after all the candidates before it have failed,
`Send` returns success and its history ends with that attempt: no later
candidate is tried. When every candidate fails, all of them have been
attempted in order and `Send` returns the error of the last candidate. -/
theorem Send_failover (env : Env) (c : client) (sender rcpt subject body : String)
    (log : List Event) (srvs : List SRV) (hHost : c.Host = "")
    (hlookup : env.lookupSRV log "submissions" "tcp" c.Domain = (srvs, none))
    (hne : srvs ≠ []) :
    (∀ pre s post, srvs = pre ++ s :: post →
      allFail env c sender rcpt subject body pre
        (log ++ [.lookupSRV "submissions" "tcp" c.Domain]) = true →
      (attempt env c sender rcpt subject body s
        (historyAfter env c sender rcpt subject body pre
          (log ++ [.lookupSRV "submissions" "tcp" c.Domain]))).1 = none →
      c.Send env sender rcpt subject body log =
        (none, (attempt env c sender rcpt subject body s
          (historyAfter env c sender rcpt subject body pre
            (log ++ [.lookupSRV "submissions" "tcp" c.Domain]))).2)) ∧
    (allFail env c sender rcpt subject body srvs
        (log ++ [.lookupSRV "submissions" "tcp" c.Domain]) = true →
      c.Send env sender rcpt subject body log =
        ((attempt env c sender rcpt subject body (srvs.getLast hne)
            (historyAfter env c sender rcpt subject body srvs.dropLast
              (log ++ [.lookupSRV "submissions" "tcp" c.Domain]))).1,
          historyAfter env c sender rcpt subject body srvs
            (log ++ [.lookupSRV "submissions" "tcp" c.Domain]))) ∧
    (∀ srv l, trimSuffix srv.Target "." = "" →
      attempt env c sender rcpt subject body srv l = (some .srvRecordDoesNotExist, l)) ∧
    (∀ srv l, trimSuffix srv.Target "." ≠ "" →
      attempt env c sender rcpt subject body srv l =
        (c.WithServer (trimSuffix srv.Target ".") srv.Port).send env sender rcpt subject body
          l) := by
  have hS := Send_lookup env c sender rcpt subject body log hHost
  rw [hlookup] at hS
  simp only at hS
  refine ⟨?_, ?_, ?_, ?_⟩
  · intro pre s post hsrvs hfail hok
    rw [hS, hsrvs]
    exact sendLoop_first_success env c sender rcpt subject body s post pre none _ hfail hok
  · intro hfail
    rw [hS]
    exact sendLoop_allFail env c sender rcpt subject body srvs none _ hne hfail
  · intro srv l h
    simp [attempt, h]
  · intro srv l h
    simp [attempt, h]

/-- Witness of C6 in the example world: the record with the root target is
skipped, smtp1 refuses, smtp2 accepts; `Send` returns success after two
connections and smtp3 is never contacted. -/
theorem Send_failover_witness :
    exampleClient.Send exampleEnv "alice@example.com" "bob@example.org" "Hi" "Hello" [] =
      (none, (attempt exampleEnv exampleClient "alice@example.com" "bob@example.org" "Hi"
        "Hello" ⟨"smtp2.example.com.", 465⟩
        (historyAfter exampleEnv exampleClient "alice@example.com" "bob@example.org" "Hi"
          "Hello" [⟨".", 0⟩, ⟨"smtp1.example.com.", 465⟩]
          ([] ++ [.lookupSRV "submissions" "tcp" exampleClient.Domain]))).2) ∧
    deliveries
      (exampleClient.Send exampleEnv "alice@example.com" "bob@example.org" "Hi" "Hello" []).2
        = 2 ∧
    (exampleClient.Send exampleEnv "alice@example.com" "bob@example.org" "Hi" "Hello"
      []).2.getLast? =
      some (.sendMailTLS "smtp2.example.com:465" "alice@example.com" "secret"
        "alice@example.com" ["bob@example.org"]
        (headerLines [("From", "<alice@example.com>"), ("To", "<bob@example.org>"),
          ("Subject", "Hi"), ("Date", "Tue, 14 Nov 2023 22:13:20 +0000"),
          ("Message-ID", "<1700000000.000102030405060708090a0b0c0d0eff@example.com>"),
          ("MIME-Version", "1.0"), ("Content-Type", "text/plain; charset=utf-8"),
          ("Content-Transfer-Encoding", "quoted-printable")] ++ "\r\n" ++ "Hello")) := by
  have h := (Send_failover exampleEnv exampleClient "alice@example.com" "bob@example.org" "Hi"
    "Hello" [] [⟨".", 0⟩, ⟨"smtp1.example.com.", 465⟩, ⟨"smtp2.example.com.", 465⟩,
      ⟨"smtp3.example.com.", 465⟩] rfl rfl (by simp)).1
    [⟨".", 0⟩, ⟨"smtp1.example.com.", 465⟩] ⟨"smtp2.example.com.", 465⟩
    [⟨"smtp3.example.com.", 465⟩] rfl (by decide) rfl
  refine ⟨h, ?_, ?_⟩
  · rw [h]; decide
  · rw [h]; rfl

theorem smtp_exampleEnv_resolver : ResolverContract exampleEnv := by
  intro h service proto name
  simp only [exampleEnv]
  split <;> simp

/-- C7: for a composer without server override whose sender domain has no
discoverable submission service, that is, the lookup fails or yields no
candidate (which Go's resolver reports as a failed lookup), `Send` returns the
discovery error, the one of the lookup, and opens no connection: its history
gains the lookup and nothing else. -/
theorem Send_discovery_error (env : Env) (c : client) (sender rcpt subject body : String)
    (log : List Event) (hHost : c.Host = "") (hres : ResolverContract env)
    (hnone : (env.lookupSRV log "submissions" "tcp" c.Domain).2 ≠ none ∨
      (env.lookupSRV log "submissions" "tcp" c.Domain).1 = []) :
    ∃ e, (env.lookupSRV log "submissions" "tcp" c.Domain).2 = some e ∧
      c.Send env sender rcpt subject body log =
        (some e, log ++ [.lookupSRV "submissions" "tcp" c.Domain]) ∧
      deliveries (c.Send env sender rcpt subject body log).2 = deliveries log := by
  have hS := Send_lookup env c sender rcpt subject body log hHost
  cases herr : (env.lookupSRV log "submissions" "tcp" c.Domain).2 with
  | none =>
    rcases hnone with h | h
    · exact absurd herr h
    · exact absurd h (hres log "submissions" "tcp" c.Domain herr)
  | some e =>
    rw [herr] at hS
    refine ⟨e, rfl, hS, ?_⟩
    rw [hS]
    simp [deliveries]

/-- Witness of C7 in the example world, which meets the contract of the
resolver: the lookup of the submission service of example.net fails, and
`Send` returns that error after the lookup alone. -/
theorem Send_discovery_error_witness :
    ResolverContract exampleEnv ∧
    orphanClient.Send exampleEnv "carol@example.net" "bob@example.org" "Hi" "Hello" [] =
      (some (.external 3), [.lookupSRV "submissions" "tcp" "example.net"]) ∧
    ∃ e, (exampleEnv.lookupSRV [] "submissions" "tcp" orphanClient.Domain).2 = some e ∧
      orphanClient.Send exampleEnv "carol@example.net" "bob@example.org" "Hi" "Hello" [] =
        (some e, [] ++ [.lookupSRV "submissions" "tcp" orphanClient.Domain]) ∧
      deliveries
        (orphanClient.Send exampleEnv "carol@example.net" "bob@example.org" "Hi" "Hello" []).2
          = deliveries [] :=
  ⟨smtp_exampleEnv_resolver, rfl,
    Send_discovery_error exampleEnv orphanClient "carol@example.net" "bob@example.org" "Hi"
      "Hello" [] rfl smtp_exampleEnv_resolver (Or.inr rfl)⟩

end smtp

end TinyMail
